import Mathlib

/-!
Verification of the charging-robots discrete-event simulator
(`charging_robots_simulation.py`) against its natural-language specification.

The simulator is shallowly embedded: Python floats are modelled as exact
rationals (`ℚ`), object references as integer ids resolved through the
simulator's tables, and the process-global random generator as explicit
oracle streams threaded through the functions that draw from it.
All definitions are translated from the source; deviations forced by the
embedding (exact arithmetic, square roots) are documented where they occur.
-/

set_option maxHeartbeats 2000000

namespace EVSim

/-- `Vehicle.charge_speed` (source lines 64-74): the state-of-charge dependent
charge-rate curve, 2.5 energy/min below 50 % of the 100-unit capacity,
1.8 below 80 %, 0.8 otherwise. -/
def charge_speed (charge_level : ℚ) : ℚ :=
  if charge_level / 100 < 1/2 then 5/2
  else if charge_level / 100 < 4/5 then 9/5
  else 4/5

/-- `Vehicle.needed_charge_time` (source lines 76-105): the piecewise
computation of the charging duration from `current_charge` to
`required_charge`.  The three stages mirror the source exactly: the first
pair component is the accumulated `time_needed`, the second the mutated
`current_pct`. -/
def needed_charge_time (current_charge required_charge : ℚ) : ℚ :=
  let needed_charge := required_charge - current_charge
  if needed_charge ≤ 0 then 0
  else
    let max_charge : ℚ := 100
    let current_pct := current_charge / max_charge
    let required_pct := required_charge / max_charge
    let step1 : ℚ × ℚ :=
      if current_pct < 1/2 ∧ required_pct > 1/2 then
        (((1/2 - current_pct) * max_charge) / (5/2), 1/2)
      else (0, current_pct)
    let step2 : ℚ × ℚ :=
      if step1.2 < 4/5 ∧ required_pct > 4/5 then
        (step1.1 + ((4/5 - max step1.2 (1/2)) * max_charge) / (9/5), 4/5)
      else step1
    if required_pct > 4/5 then
      step2.1 + ((required_pct - max step2.2 (4/5)) * max_charge) / (4/5)
    else step2.1

/-- Minute-by-minute charging of an unconstrained vehicle under the
charge-rate curve, with no efficiency noise and no battery constraint:
each minute adds `charge_speed current` to the vehicle; the result is
the number of minutes consumed until the charge reaches `required`.
`fuel` bounds the recursion. -/
def simulate_charge_minutes (required : ℚ) : ℕ → ℚ → ℕ
  | 0, _ => 0
  | fuel + 1, current =>
    if required ≤ current then 0
    else simulate_charge_minutes required fuel (current + charge_speed current) + 1

/-- The exact piecewise integral of the charge-rate curve from `a` to `b`
(`a ≤ b ≤ 100`): time spent in each of the three bands at its rate.
This is the quantity the specification says `needed_charge_time` returns. -/
def charge_curve_integral (a b : ℚ) : ℚ :=
  (max 0 (min b 50 - a)) / (5/2)
    + (max 0 (min b 80 - max a 50)) / (9/5)
    + (max 0 (b - max a 80)) / (4/5)

/-! ## Event kinds and the heap key order (kernel loop, source lines 433-462)

The event queue is a `heapq` min-heap of Python tuples `(time, kind)` or
`(time, kind, payload)`.  Python compares such tuples lexicographically:
first the numeric time, then the kind STRING (code-point lexicographic),
and the payload only when time and kind coincide. -/

/-- The seven event kinds dispatched by `ChargingSimulation.run`. -/
inductive EventKind
  | vehicle_arrival
  | vehicle_departure
  | assign_tasks
  | update_status
  | update_priorities
  | task_completion
  | battery_charged
deriving DecidableEq, Repr

/-- The kind string of each event, exactly as pushed onto the heap in the
source (`heapq.heappush(self.events, (…, "update_status"))` and so on). -/
def kind_str : EventKind → String
  | .vehicle_arrival => "vehicle_arrival"
  | .vehicle_departure => "vehicle_departure"
  | .assign_tasks => "assign_tasks"
  | .update_status => "update_status"
  | .update_priorities => "update_priorities"
  | .task_completion => "task_completion"
  | .battery_charged => "battery_charged"

/-- Python's `<` on strings is code-point lexicographic: exactly the
lexicographic order on the lists of characters. -/
def kind_lt (k1 k2 : EventKind) : Prop := (kind_str k1).data < (kind_str k2).data

instance : DecidableRel kind_lt := fun k1 k2 =>
  inferInstanceAs (Decidable ((kind_str k1).data < (kind_str k2).data))

/-- The heap key order on `(time, kind)`: Python tuple comparison,
time first, then the kind string. -/
def event_key_lt (a b : ℚ × EventKind) : Prop :=
  a.1 < b.1 ∨ (a.1 = b.1 ∧ kind_lt a.2 b.2)

instance : DecidableRel event_key_lt := fun a b =>
  inferInstanceAs (Decidable (a.1 < b.1 ∨ (a.1 = b.1 ∧ kind_lt a.2 b.2)))

/-- The key popped first by `heapq.heappop`: the minimum of the queued keys
under `event_key_lt` (for the runs considered here all queued keys are
distinct, so the choice among equal keys never matters). -/
def pop_first (l : List (ℚ × EventKind)) : Option (ℚ × EventKind) :=
  l.foldl
    (fun acc e =>
      match acc with
      | none => some e
      | some m => if event_key_lt e m then some e else some m)
    none

/-! ## Module constants (source lines 9-40) -/

def PARK_WIDTH : ℚ := 1000

def PARK_HEIGHT : ℚ := 1000

/-- Park positions, exact rationals. -/
abbrev Pos := ℚ × ℚ

def CHARGING_STATION_POS : Pos := (50, 50)

/-- The five charging stations: the canonical one, the three other
near-corner ones and the central one (source lines 15-21). -/
def CHARGING_STATIONS : List Pos :=
  [CHARGING_STATION_POS,
   (PARK_WIDTH - 100, 100),
   (100, PARK_HEIGHT - 100),
   (PARK_WIDTH - 100, PARK_HEIGHT - 100),
   (500, 500)]

def MAX_SIM_TIME : ℚ := 300 * 60

/-! ## Geometry

The source computes Euclidean distances in floating point
(`((dx)**2 + (dy)**2) ** 0.5`).  In this exact model `rat_sqrt` is the true
square root whenever its argument's numerator and denominator are perfect
squares; every theorem below applies a distance VALUE only at such points,
and distance COMPARISONS (sorting, nearest-station selection) are embedded
through squared distances, which is equivalent since the square root is
monotone. -/

/-- Squared Euclidean distance. -/
def dist2 (p q : Pos) : ℚ := (p.1 - q.1) ^ 2 + (p.2 - q.2) ^ 2

/-- Exact square root on the perfect squares of `ℚ` (see the section
comment); on other inputs the value is never relied upon. -/
def rat_sqrt (q : ℚ) : ℚ := (Nat.sqrt q.num.toNat : ℚ) / (Nat.sqrt q.den : ℚ)

/-- Euclidean distance between two park positions. -/
def distance (p q : Pos) : ℚ := rat_sqrt (dist2 p q)

/-! ## Entity data model (source lines 42-274) -/

/-- `Vehicle.status`: waiting, assigned, charging, completed, failed. -/
inductive VehicleStatus
  | waiting
  | assigned
  | charging
  | completed
  | failed
deriving DecidableEq, Repr

/-- The `Vehicle` record (source lines 44-56).  The `assigned_robot`
reference is modelled as a robot id resolved through the simulator's
robot table. -/
structure Vehicle where
  id : ℕ
  arrival_time : ℚ
  position : Pos
  initial_charge : ℚ
  current_charge : ℚ
  departure_time : ℚ
  required_charge : ℚ
  status : VehicleStatus
  assigned_robot : Option ℕ
  charging_start_time : Option ℚ
  charging_end_time : Option ℚ
  priority : ℚ
deriving DecidableEq, Repr

/-- Creation of a vehicle by the arrival generator (source lines 44-56):
fresh vehicles are waiting, unassigned, at their initial charge. -/
def mkVehicle (id : ℕ) (arrival_time : ℚ) (position : Pos)
    (initial_charge departure_time required_charge : ℚ) : Vehicle :=
  { id := id
    arrival_time := arrival_time
    position := position
    initial_charge := initial_charge
    current_charge := initial_charge
    departure_time := departure_time
    required_charge := required_charge
    status := .waiting
    assigned_robot := none
    charging_start_time := none
    charging_end_time := none
    priority := 0 }

/-- `Vehicle.__lt__` (source lines 58-62): higher priority first, ties by
ascending id.  Used by Python's `sort` on the waiting queue. -/
def vehicle_ltb (a b : Vehicle) : Bool :=
  if a.priority = b.priority then a.id < b.id else b.priority < a.priority

/-- `Vehicle.update_priority` (source lines 107-123). -/
def update_priority (v : Vehicle) (current_time : ℚ) : Vehicle :=
  let time_urgency := max 1 (v.departure_time - current_time)
  let charge_needed := max 0 (v.required_charge - v.current_charge)
  let waiting_time := current_time - v.arrival_time
  let urgency_factor : ℚ := if time_urgency < 30 then 10 else 1
  { v with priority := (charge_needed / time_urgency) * urgency_factor + waiting_time / 60 }

/-- `Battery.status`: available, in-use, charging. -/
inductive BatteryStatus
  | available
  | in_use
  | charging
deriving DecidableEq, Repr

/-- The `Battery` record (source lines 129-139). -/
structure Battery where
  id : ℕ
  max_capacity : ℚ
  current_charge : ℚ
  status : BatteryStatus
  location : Pos
  assigned_robot : Option ℕ
  charge_start_time : Option ℚ
  charging_station : Pos
deriving DecidableEq, Repr

/-- `Battery.__init__` (source lines 131-139): full, available, at the
canonical station (the station is redistributed in `setup`). -/
def mkBattery (id : ℕ) : Battery :=
  { id := id
    max_capacity := 60
    current_charge := 60
    status := .available
    location := CHARGING_STATION_POS
    assigned_robot := none
    charge_start_time := none
    charging_station := CHARGING_STATION_POS }

/-- `Battery.charge` (source lines 141-155): one recharge step of
`time_elapsed` minutes at the capacity-dependent station rate, clamped at
`max_capacity`; returns whether any charging happened. -/
def battery_charge (b : Battery) (time_elapsed : ℚ) : Battery × Bool :=
  if b.current_charge < b.max_capacity then
    let speed : ℚ :=
      if b.current_charge / b.max_capacity < 0.5 then 2
      else if b.current_charge / b.max_capacity < 0.8 then 1.5
      else 1
    let c := min b.max_capacity (b.current_charge + speed * time_elapsed)
    ({ b with current_charge := c }, true)
  else (b, false)

/-- Robot status: idle, moving_to_vehicle, charging_vehicle, returning,
swapping_battery. -/
inductive RobotStatus
  | idle
  | moving_to_vehicle
  | charging_vehicle
  | returning
  | swapping_battery
deriving DecidableEq, Repr

/-- The `Robot` record (source lines 163-176).  The held battery and the
target vehicle are ids resolved through the simulator's tables. -/
structure Robot where
  id : ℕ
  home_station : Pos
  position : Pos
  battery : Option ℕ
  status : RobotStatus
  target_vehicle : Option ℕ
  speed : ℚ
  battery_consumption_rate : ℚ
  idle_consumption_rate : ℚ
  task_start_time : Option ℚ
  last_assigned_time : ℚ
deriving DecidableEq, Repr

/-- `Robot.__init__` (source lines 163-176): the home station is drawn by
`random.choice(CHARGING_STATIONS)`; the draw is passed in explicitly as the
chosen station. -/
def mkRobot (id : ℕ) (home : Pos) : Robot :=
  { id := id
    home_station := home
    position := home
    battery := none
    status := .idle
    target_vehicle := none
    speed := 8
    battery_consumption_rate := 0.04
    idle_consumption_rate := 0.005
    task_start_time := none
    last_assigned_time := 0 }

/-- `Robot.distance_to` (source lines 185-188). -/
def distance_to (r : Robot) (p : Pos) : ℚ := distance r.position p

/-- `Robot.time_to_reach` (source lines 190-193).  The source returns
infinity when `speed = 0`; the speed is the constant 8 in every robot the
simulator creates, so that branch is modelled as 0. -/
def time_to_reach (r : Robot) (p : Pos) : ℚ :=
  if 0 < r.speed then distance r.position p / r.speed else 0

/-- `Robot.find_nearest_charging_station` (source lines 195-199): the
source sorts the stations by distance (a stable sort) and takes the first,
i.e. the earliest station of minimal distance; comparing squared distances
is equivalent. -/
def find_nearest_charging_station (r : Robot) : Pos :=
  CHARGING_STATIONS.foldl
    (fun best s => if dist2 r.position s < dist2 r.position best then s else best)
    CHARGING_STATION_POS

/-- `Robot.battery_needed_for_trip` (source lines 201-214): energy for the
one-way trip to `p`, plus — when `return_trip` — the trip from `p` to the
station nearest to the ROBOT's current position. -/
def battery_needed_for_trip (r : Robot) (p : Pos) (return_trip : Bool) : ℚ :=
  let one_way_time := time_to_reach r p
  let total_time :=
    if return_trip then
      let nearest_station := find_nearest_charging_station r
      one_way_time + distance p nearest_station / r.speed
    else one_way_time
  total_time * r.battery_consumption_rate

/-! ## Stable sorting

Python's `list.sort` is a stable ascending sort; with `reverse=True` it is a
stable descending sort (equal-key elements keep their original relative
order in both cases).  A stable sort for a total preorder is unique, so the
structural insertion sort below agrees with it. -/

/-- Insert `x` before the first element `y` with `le x y` (stable). -/
def stable_insert (le : α → α → Bool) (x : α) : List α → List α
  | [] => [x]
  | y :: ys => if le x y then x :: y :: ys else y :: stable_insert le x ys

/-- Stable insertion sort, ascending with respect to `le`. -/
def stable_sort (le : α → α → Bool) : List α → List α
  | [] => []
  | x :: xs => stable_insert le x (stable_sort le xs)

/-! ## The simulator state

Object references of the source (`vehicle.assigned_robot`,
`robot.target_vehicle`, `robot.battery`, heap payloads) are integer ids
resolved through the state's entity tables.  The event heap is a list with
minimum-extraction; pushing appends.  The `assignment_cache` dictionary of
the source is consulted only through `len(...get('waiting_vehicles', []))`,
so it is modelled by that length. -/

/-- A queued event: the payload of an arrival is the vehicle object itself
(it enters the tables only when the arrival is handled); other payloads are
ids. -/
inductive EventItem
  | vehicle_arrival (v : Vehicle)
  | vehicle_departure (vid : ℕ)
  | assign_tasks
  | update_status
  | update_priorities
  | task_completion (rid : ℕ)
  | battery_charged (bid : ℕ)
deriving DecidableEq, Repr

/-- An event as pushed on the heap: timestamp plus item. -/
abbrev Event := ℚ × EventItem

def item_kind : EventItem → EventKind
  | .vehicle_arrival _ => .vehicle_arrival
  | .vehicle_departure _ => .vehicle_departure
  | .assign_tasks => .assign_tasks
  | .update_status => .update_status
  | .update_priorities => .update_priorities
  | .task_completion _ => .task_completion
  | .battery_charged _ => .battery_charged

def event_key (e : Event) : ℚ × EventKind := (e.1, item_kind e.2)

/-- `heapq.heappop`: extract an event with minimal `(time, kind)` key.
Among equal keys the source would compare payloads (`Vehicle.__lt__`); in
every run considered below all queued keys are distinct, so the
first-position choice made here never differs from the heap's. -/
def pop_event : List Event → Option (Event × List Event)
  | [] => none
  | e :: rest =>
    match pop_event rest with
    | none => some (e, [])
    | some (m, rest') =>
      if event_key_lt (event_key m) (event_key e) then some (m, e :: rest')
      else some (e, rest)

/-- The dispatch policies of the base simulator (`scheduling_strategy`). -/
inductive Strategy
  | nearest_first
  | max_charge_need_first
  | earliest_deadline_first
  | most_urgent_first
  | hybrid_strategy
deriving DecidableEq, Repr

/-- The mutable statistics dictionary (source lines 300-308).
`area_coverage` maps the four zones, in the order zone1..zone4 of the
source's `zones` dictionary, to their service counts. -/
structure Stats where
  completed_count : ℕ
  failed_count : ℕ
  total_waiting_time : ℚ
  total_charging_time : ℚ
  battery_swaps : ℕ
  area_coverage : List ℕ
deriving DecidableEq, Repr

def initStats : Stats :=
  { completed_count := 0
    failed_count := 0
    total_waiting_time := 0
    total_charging_time := 0
    battery_swaps := 0
    area_coverage := [0, 0, 0, 0] }

/-- The park quadrants (source lines 311-316): lower-left and upper-right
corner of zone1..zone4. -/
def zones : List (Pos × Pos) :=
  [((0, 0), (500, 500)),
   ((500, 0), (1000, 500)),
   ((0, 500), (500, 1000)),
   ((500, 500), (1000, 1000))]

/-- `ChargingSimulation` state (source lines 279-320).  `eff_stream` is
the oracle stream of values returned by the `random.uniform(0.95, 1.05)`
efficiency draws consumed by charging transfers, head first. -/
structure SimState where
  current_time : ℚ
  events : List Event
  vehicles : List Vehicle
  waiting_vehicles : List ℕ
  robots : List Robot
  batteries : List Battery
  completed_vehicles : List ℕ
  failed_vehicles : List ℕ
  stats : Stats
  scheduling_strategy : Strategy
  last_assignment_time : ℚ
  assignment_cache_len : ℕ
  eff_stream : List ℚ
deriving DecidableEq, Repr

def getVehicle (s : SimState) (vid : ℕ) : Option Vehicle :=
  s.vehicles.find? (fun v => v.id = vid)

def getRobot (s : SimState) (rid : ℕ) : Option Robot :=
  s.robots.find? (fun r => r.id = rid)

def getBattery (s : SimState) (bid : ℕ) : Option Battery :=
  s.batteries.find? (fun b => b.id = bid)

def setVehicle (s : SimState) (vid : ℕ) (f : Vehicle → Vehicle) : SimState :=
  { s with vehicles := s.vehicles.map (fun v => if v.id = vid then f v else v) }

def setRobot (s : SimState) (rid : ℕ) (f : Robot → Robot) : SimState :=
  { s with robots := s.robots.map (fun r => if r.id = rid then f r else r) }

def setBattery (s : SimState) (bid : ℕ) (f : Battery → Battery) : SimState :=
  { s with batteries := s.batteries.map (fun b => if b.id = bid then f b else b) }

/-- `Robot.assign_battery` (source lines 178-183): the robot takes the
battery, which becomes in-use, owned by the robot, located at the robot. -/
def assign_battery (s : SimState) (rid bid : ℕ) : SimState :=
  match getRobot s rid with
  | none => s
  | some r =>
    let s := setRobot s rid (fun r => { r with battery := some bid })
    setBattery s bid (fun b =>
      { b with status := .in_use, assigned_robot := some rid, location := r.position })

/-- `Robot.move_towards` (source lines 227-261) lifted to the state: move
robot `rid` towards `target` for `time_elapsed` minutes, debiting the
moving consumption from the held battery and dragging the battery's
location along; returns whether the target was reached.  The arrival test
`move_distance ≥ distance` is embedded as the equivalent comparison of
squared quantities; the partial-move position uses `rat_sqrt` and is exact
whenever the squared distance is a perfect square (see the geometry
section). -/
def move_towards (s : SimState) (rid : ℕ) (target : Pos) (time_elapsed : ℚ) :
    SimState × Bool :=
  match getRobot s rid with
  | none => (s, false)
  | some r =>
    if r.position = target then (s, true)
    else
      let dx := target.1 - r.position.1
      let dy := target.2 - r.position.2
      let d2 := dx ^ 2 + dy ^ 2
      let debit : SimState → Pos → SimState := fun s newpos =>
        match r.battery with
        | none => s
        | some bid =>
          setBattery s bid (fun b =>
            { b with
              current_charge :=
                b.current_charge - r.battery_consumption_rate * time_elapsed
              location := newpos })
      if d2 ≤ (r.speed * time_elapsed) ^ 2 then
        let s := setRobot s rid (fun r => { r with position := target })
        (debit s target, true)
      else
        let frac := (r.speed * time_elapsed) / rat_sqrt d2
        let newpos : Pos := (r.position.1 + dx * frac, r.position.2 + dy * frac)
        let s := setRobot s rid (fun r => { r with position := newpos })
        (debit s newpos, false)

/-! ## Simple event handlers -/

/-- `ChargingSimulation.handle_battery_charged` (source lines 599-604):
only a FULL battery is clamped and made available. -/
def handle_battery_charged (s : SimState) (bid : ℕ) : SimState :=
  match getBattery s bid with
  | none => s
  | some b =>
    if b.max_capacity ≤ b.current_charge then
      setBattery s bid (fun b =>
        { b with current_charge := b.max_capacity, status := .available })
    else s

/-- `ChargingSimulation.update_zone_coverage` (source lines 606-614):
increment the service count of the first zone containing the position. -/
def update_zone_coverage (s : SimState) (p : Pos) : SimState :=
  match zones.findIdx? (fun z =>
      z.1.1 ≤ p.1 ∧ p.1 ≤ z.2.1 ∧ z.1.2 ≤ p.2 ∧ p.2 ≤ z.2.2) with
  | none => s
  | some i =>
    { s with stats := { s.stats with
        area_coverage := List.modify (· + 1) i s.stats.area_coverage } }

/-- `ChargingSimulation.update_vehicle_priorities` (source lines 616-622):
refresh the priority of every waiting vehicle, then `sort(reverse=True)`
the waiting queue by `Vehicle.__lt__` (a stable descending sort). -/
def update_vehicle_priorities (s : SimState) : SimState :=
  let s := { s with vehicles := s.vehicles.map (fun v =>
      if s.waiting_vehicles.contains v.id then update_priority v s.current_time
      else v) }
  let key : ℕ → Vehicle := fun vid => (getVehicle s vid).getD (mkVehicle 0 0 (0, 0) 0 0 0)
  { s with waiting_vehicles :=
      stable_sort (fun a b => ! vehicle_ltb (key a) (key b)) s.waiting_vehicles }

/-- `ChargingSimulation.handle_vehicle_departure` (source lines 539-557). -/
def handle_vehicle_departure (s : SimState) (vid : ℕ) : SimState :=
  match getVehicle s vid with
  | none => s
  | some v =>
    if s.completed_vehicles.contains vid ∨ v.status = .completed then s
    else
      let s := setVehicle s vid (fun v => { v with status := .failed })
      let s := { s with
        failed_vehicles := s.failed_vehicles ++ [vid]
        stats := { s.stats with failed_count := s.stats.failed_count + 1 } }
      let s :=
        match v.assigned_robot with
        | none => s
        | some rid =>
          match getRobot s rid with
          | none => s
          | some r =>
            if r.target_vehicle = some vid then
              let s := setRobot s rid (fun r =>
                { r with status := .returning, target_vehicle := none })
              setVehicle s vid (fun v => { v with assigned_robot := none })
            else s
      { s with waiting_vehicles := s.waiting_vehicles.erase vid }

/-- The tail of `handle_task_completion` (source lines 591-597): a robot
whose battery dropped below 10 at completion is teleported to the nearest
charging station (forced retreat). -/
def completion_low_battery_retreat (s : SimState) (rid : ℕ) : SimState :=
  match getRobot s rid with
  | none => s
  | some r =>
    match r.battery with
    | none => s
    | some bid =>
      match getBattery s bid with
      | none => s
      | some b =>
        if b.current_charge < 10 then
          setRobot s rid (fun r =>
            { r with position := find_nearest_charging_station r })
        else s

/-- `ChargingSimulation.handle_task_completion` (source lines 561-597). -/
def handle_task_completion (s : SimState) (rid : ℕ) : SimState :=
  match getRobot s rid with
  | none => s
  | some r =>
    match r.target_vehicle with
    | none =>
      setRobot s rid (fun r => { r with status := .returning, target_vehicle := none })
    | some vid =>
      match getVehicle s vid with
      | none =>
        setRobot s rid (fun r => { r with status := .returning, target_vehicle := none })
      | some v =>
        if v.status = .failed then
          setRobot s rid (fun r => { r with status := .returning, target_vehicle := none })
        else
          let s :=
            if v.required_charge ≤ v.current_charge then
              let s := setVehicle s vid (fun v =>
                { v with status := .completed, charging_end_time := some s.current_time })
              let s := { s with
                completed_vehicles := s.completed_vehicles ++ [vid]
                stats := { s.stats with
                  completed_count := s.stats.completed_count + 1 } }
              match v.charging_start_time with
              | none => s
              | some cs =>
                { s with stats := { s.stats with
                    total_waiting_time := s.stats.total_waiting_time + (cs - v.arrival_time)
                    total_charging_time := s.stats.total_charging_time + (s.current_time - cs) } }
            else s
          let s := setRobot s rid (fun r =>
            { r with status := .returning, target_vehicle := none })
          let s := setVehicle s vid (fun v => { v with assigned_robot := none })
          completion_low_battery_retreat s rid

/-! ## The dispatcher (source lines 472-537 and 762-1102) -/

/-- Charge of the battery held by a robot, `None` when it holds none. -/
def robot_battery_charge (s : SimState) (r : Robot) : Option ℚ :=
  r.battery.bind (fun bid => (getBattery s bid).map (·.current_charge))

/-- The idle-robot filter shared by `assign_tasks` and
`assign_emergency_task` (source lines 494-497 and 780-783): idle robots
holding a battery with charge above 15. -/
def idle_robots (s : SimState) : List Robot :=
  s.robots.filter (fun r =>
    decide (r.status = RobotStatus.idle) &&
    match robot_battery_charge s r with
    | none => false
    | some c => decide (15 < c))

/-- The time-budget check of every policy (`if current_time + travel_time +
charge_time > vehicle.departure_time: continue`): the candidate survives
exactly when `t + travel + charge_time ≤ departure`. -/
def time_budget_ok (t travel_time charge_time dep : ℚ) : Bool :=
  ! decide (dep < t + travel_time + charge_time)

/-- The energy-budget check of the four simple policies and the emergency
path (`if robot.battery.current_charge > total_energy_needed * 1.3`). -/
def energy_budget_ok (battery_charge total_energy_needed : ℚ) : Bool :=
  decide (total_energy_needed * 1.3 < battery_charge)

/-- The robot-specific safety margin of the hybrid policy (source lines
1063-1064): `clip(1.5 - charge/60, 1.2, 1.5)`. -/
def hybrid_safety_margin (battery_charge : ℚ) : ℚ :=
  max 1.2 (min 1.5 (1.5 - battery_charge / 60))

/-- The energy-budget check of the hybrid policy (source line 1066:
`if robot.battery.current_charge <= total_energy_needed * safety_margin:
continue`). -/
def hybrid_energy_ok (battery_charge total_energy_needed : ℚ) : Bool :=
  ! decide (battery_charge ≤ total_energy_needed * hybrid_safety_margin battery_charge)

/-- The estimated energy a task costs the robot, shared verbatim by every
policy: trip to the vehicle, half the vehicle's missing charge, and the
trip back to the station nearest the robot (one-way trip energies). -/
def total_energy_needed (r : Robot) (v : Vehicle) : ℚ :=
  let trip_to_vehicle := battery_needed_for_trip r v.position false
  let estimated_charging := (v.required_charge - v.current_charge) * 0.5
  let trip_back := battery_needed_for_trip r (find_nearest_charging_station r) false
  trip_to_vehicle + estimated_charging + trip_back

/-- Perform an assignment of robot `r` to vehicle `v` (the common
effectuation block of the policies): robot moves to the vehicle, both sides
record the link, the vehicle leaves the waiting queue. -/
def effect_assignment (s : SimState) (rid vid : ℕ) : SimState :=
  let s := setRobot s rid (fun r =>
    { r with status := .moving_to_vehicle, target_vehicle := some vid
             task_start_time := some s.current_time })
  let s := setVehicle s vid (fun v =>
    { v with assigned_robot := some rid, status := .assigned })
  { s with waiting_vehicles := s.waiting_vehicles.erase vid }

/-- Inner loop of `assign_emergency_task` (source lines 506-535) over the
robots sorted by distance: first robot passing the time and energy budgets
is assigned. -/
def assign_emergency_go (s : SimState) (v : Vehicle) :
    List Robot → SimState × Bool
  | [] => (s, false)
  | r :: rest =>
    let travel_time := time_to_reach r v.position
    let charge_time := needed_charge_time v.current_charge v.required_charge
    if ! time_budget_ok s.current_time travel_time charge_time v.departure_time then
      assign_emergency_go s v rest
    else
      let bcharge := (robot_battery_charge s r).getD 0
      if energy_budget_ok bcharge (total_energy_needed r v) then
        (effect_assignment s r.id v.id, true)
      else assign_emergency_go s v rest

/-- `ChargingSimulation.assign_emergency_task` (source lines 491-537):
immediate nearest-feasible assignment attempted for a vehicle arriving
with less than 60 minutes of dwell. -/
def assign_emergency_task (s : SimState) (v : Vehicle) : SimState × Bool :=
  let idle := idle_robots s
  if idle.isEmpty then (s, false)
  else
    let sorted := stable_sort
      (fun a b => decide (dist2 a.position v.position ≤ dist2 b.position v.position))
      idle
    assign_emergency_go s v sorted

/-- `ChargingSimulation.handle_vehicle_arrival` (source lines 472-489):
register the vehicle, queue it, compute its initial priority, count its
zone, post its departure event, and attempt an emergency assignment when
its dwell is under an hour. -/
def handle_vehicle_arrival (s : SimState) (v : Vehicle) : SimState :=
  let v := update_priority v s.current_time
  let s := { s with
    vehicles := s.vehicles ++ [v]
    waiting_vehicles := s.waiting_vehicles ++ [v.id] }
  let s := update_zone_coverage s v.position
  let s := { s with events := s.events ++ [(v.departure_time, .vehicle_departure v.id)] }
  if v.departure_time - s.current_time < 60 then (assign_emergency_task s v).1
  else s

/-- The waiting vehicles resolved to their records (lookups never fail in a
well-formed state). -/
def waiting_list (s : SimState) : List Vehicle :=
  s.waiting_vehicles.filterMap (getVehicle s)

/-- Inner loop of `assign_nearest_first` (source lines 819-846) for one
robot over the waiting vehicles sorted by ascending distance (the sort
compares squared distances, equivalently): the first vehicle passing both
budgets is assigned and the scan stops. -/
def nearest_first_try (s : SimState) (r : Robot) :
    List (Vehicle × ℚ) → SimState
  | [] => s
  | (v, d2) :: rest =>
    let travel_time := rat_sqrt d2 / r.speed
    let charge_time := needed_charge_time v.current_charge v.required_charge
    if ! time_budget_ok s.current_time travel_time charge_time v.departure_time then
      nearest_first_try s r rest
    else
      let bcharge := (robot_battery_charge s r).getD 0
      if energy_budget_ok bcharge (total_energy_needed r v) then
        effect_assignment s r.id v.id
      else nearest_first_try s r rest

/-- `ChargingSimulation.assign_nearest_first` (source lines 806-846). -/
def assign_nearest_first (s : SimState) : List Robot → SimState
  | [] => s
  | r :: rest =>
    if s.waiting_vehicles.isEmpty then s
    else
      let cands := stable_sort (fun a b => decide (a.2 ≤ b.2))
        ((waiting_list s).map (fun v => (v, dist2 r.position v.position)))
      let s := nearest_first_try s r cands
      assign_nearest_first s rest

/-- Inner loop shared by the three vehicle-major simple policies (source
lines 863-892, 907-936, 952-982): scan the robots sorted by ascending
distance to `v`; assign the first one passing both budgets, returning its
id so the caller can retire it from the idle pool. -/
def vehicle_major_try (s : SimState) (v : Vehicle) :
    List (Robot × ℚ) → SimState × Option ℕ
  | [] => (s, none)
  | (r, d2) :: rest =>
    let travel_time := rat_sqrt d2 / r.speed
    let charge_time := needed_charge_time v.current_charge v.required_charge
    if ! time_budget_ok s.current_time travel_time charge_time v.departure_time then
      vehicle_major_try s v rest
    else
      let bcharge := (robot_battery_charge s r).getD 0
      if energy_budget_ok bcharge (total_energy_needed r v) then
        (effect_assignment s r.id v.id, some r.id)
      else vehicle_major_try s v rest

/-- Outer loop shared by the three vehicle-major simple policies: walk the
pre-sorted vehicle list, matching each to its nearest feasible idle robot
and retiring assigned robots from the pool. -/
def vehicle_major_go (s : SimState) :
    List Vehicle → List Robot → SimState
  | [], _ => s
  | v :: vs, idle =>
    if idle.isEmpty then s
    else
      let sorted := stable_sort (fun a b => decide (a.2 ≤ b.2))
        (idle.map (fun r => (r, dist2 r.position v.position)))
      match vehicle_major_try s v sorted with
      | (s, some rid) => vehicle_major_go s vs (idle.filter (fun r => r.id ≠ rid))
      | (s, none) => vehicle_major_go s vs idle

/-- `ChargingSimulation.assign_max_charge_need_first` (source lines
848-892): vehicles in stable descending order of missing charge. -/
def assign_max_charge_need_first (s : SimState) (idle : List Robot) : SimState :=
  let sorted := stable_sort
    (fun a b => decide (b.required_charge - b.current_charge ≤
                        a.required_charge - a.current_charge))
    (waiting_list s)
  vehicle_major_go s sorted idle

/-- `ChargingSimulation.assign_earliest_deadline_first` (source lines
894-936): vehicles in stable ascending order of departure time. -/
def assign_earliest_deadline_first (s : SimState) (idle : List Robot) : SimState :=
  let sorted := stable_sort
    (fun a b => decide (a.departure_time ≤ b.departure_time))
    (waiting_list s)
  vehicle_major_go s sorted idle

/-- `ChargingSimulation.assign_most_urgent_first` (source lines 938-982):
a copy of the waiting queue sorted with `sort(reverse=True)` under
`Vehicle.__lt__` (stable descending), then the vehicle-major loop. -/
def assign_most_urgent_first (s : SimState) (idle : List Robot) : SimState :=
  let sorted := stable_sort (fun a b => ! vehicle_ltb a b) (waiting_list s)
  vehicle_major_go s sorted idle

/-- The hybrid score of one waiting vehicle (source lines 991-1030):
service value, urgency, waiting compensation and area balance.  The
`service_value` guard `if time_left > 0` always takes the main branch
since `time_left = max 1 …`. -/
def hybrid_score (s : SimState) (v : Vehicle) : ℚ :=
  let charge_need := v.required_charge - v.current_charge
  let time_left := max 1 (v.departure_time - s.current_time)
  let waiting_time := s.current_time - v.arrival_time
  let service_value := charge_need / time_left
  let urgency_factor : ℚ := if time_left < 60 then 5 * (60 / time_left) else 1
  let waiting_factor := min 3 (waiting_time / 60)
  let area_balance : ℚ :=
    match zones.findIdx? (fun z =>
        z.1.1 ≤ v.position.1 ∧ v.position.1 ≤ z.2.1 ∧
        z.1.2 ≤ v.position.2 ∧ v.position.2 ≤ z.2.2) with
    | none => 1
    | some i =>
      let zone_service_count := (s.stats.area_coverage.getD i 0 : ℚ)
      let sum_services := (s.stats.area_coverage.foldl (· + ·) 0 : ℕ)
      let total_services : ℚ := if sum_services = 0 then 1 else (sum_services : ℚ)
      let expected : ℚ := 1 / 4
      if zone_service_count / total_services < expected * 0.8 then 1.5 else 1
  service_value * urgency_factor * waiting_factor * area_balance

/-- Best-match selection for one robot in the hybrid policy (source lines
1040-1077): over the scored vehicles, maximise `base_score ·
(1 - min 0.4 (distance/1000))` among those passing the time budget and the
margin-adjusted energy budget; strict improvement, first maximum wins. -/
def hybrid_pick (s : SimState) (r : Robot) :
    List (Vehicle × ℚ) → Option Vehicle × ℚ → Option Vehicle
  | [], best => best.1
  | (v, base_score) :: rest, best =>
    let d := distance_to r v.position
    let travel_time := d / r.speed
    let charge_time := needed_charge_time v.current_charge v.required_charge
    if ! time_budget_ok s.current_time travel_time charge_time v.departure_time then
      hybrid_pick s r rest best
    else
      let bcharge := (robot_battery_charge s r).getD 0
      if ! hybrid_energy_ok bcharge (total_energy_needed r v) then
        hybrid_pick s r rest best
      else
        let distance_penalty := 1 - min 0.4 (d / 1000)
        let match_score := base_score * distance_penalty
        if best.2 < match_score then hybrid_pick s r rest (some v, match_score)
        else hybrid_pick s r rest best

/-- Robot-major loop of the hybrid policy (source lines 1036-1102). -/
def hybrid_go (s : SimState) :
    List Robot → List (Vehicle × ℚ) → SimState
  | [], _ => s
  | r :: rest, scores =>
    if scores.isEmpty then s
    else
      match hybrid_pick s r scores (none, -1) with
      | none => hybrid_go s rest scores
      | some v =>
        let s := effect_assignment s r.id v.id
        let s := setRobot s r.id (fun r => { r with last_assigned_time := s.current_time })
        hybrid_go s rest (scores.filter (fun p => p.1.id ≠ v.id))

/-- `ChargingSimulation.assign_hybrid_strategy` (source lines 984-1102):
idle robots in stable descending battery order, vehicles scored and sorted
in stable descending score order, then the robot-major matching. -/
def assign_hybrid_strategy (s : SimState) (idle : List Robot) : SimState :=
  let idle := stable_sort
    (fun a b => decide ((robot_battery_charge s b).getD 0 ≤
                        (robot_battery_charge s a).getD 0))
    idle
  let scores := stable_sort (fun a b => decide (b.2 ≤ a.2))
    ((waiting_list s).map (fun v => (v, hybrid_score s v)))
  hybrid_go s idle scores

/-- `ChargingSimulation.assign_tasks` (source lines 762-804): the
fresh-cache guard, the priority refresh, the idle filter, the policy
dispatch, and the cache update. -/
def assign_tasks (s : SimState) : SimState :=
  if s.current_time - s.last_assignment_time < 2 ∧ 0 < s.last_assignment_time ∧
      s.waiting_vehicles.length = s.assignment_cache_len then s
  else
    let s := update_vehicle_priorities s
    if s.waiting_vehicles.isEmpty then s
    else
      let idle := idle_robots s
      if idle.isEmpty then s
      else
        let s :=
          match s.scheduling_strategy with
          | .nearest_first => assign_nearest_first s idle
          | .max_charge_need_first => assign_max_charge_need_first s idle
          | .earliest_deadline_first => assign_earliest_deadline_first s idle
          | .most_urgent_first => assign_most_urgent_first s idle
          | .hybrid_strategy => assign_hybrid_strategy s idle
        { s with
          last_assignment_time := s.current_time
          assignment_cache_len := s.waiting_vehicles.length }

/-! ## The per-tick state updater `update_status` (source lines 624-760) -/

/-- One robot's step of `update_status` (the body of the
`for robot in self.robots` loop, source lines 627-753).  The branches, in
source order: battery pickup when holding none; battery swap or forced
return when the held battery is below 10; then the state machine on the
robot's status (idle drain, travel to the target, the charging transfer,
the trip home). -/
def update_one_robot (s : SimState) (rid : ℕ) : SimState :=
  match getRobot s rid with
  | none => s
  | some r =>
    match r.battery with
    | none =>
      match s.batteries.find? (fun b =>
          decide (b.status = BatteryStatus.available) ∧ b.location = r.position) with
      | some b => assign_battery s rid b.id
      | none => s
    | some bid =>
      match getBattery s bid with
      | none => s
      | some batt =>
        if batt.current_charge < 10 then
          if CHARGING_STATIONS.contains r.position then
            let s := setBattery s bid (fun b =>
              { b with status := .charging, assigned_robot := none
                       charge_start_time := some s.current_time
                       location := r.position })
            let s := setRobot s rid (fun r => { r with battery := none })
            match s.batteries.find? (fun b =>
                decide (b.status = BatteryStatus.available) ∧ b.location = r.position ∧
                decide (45 < b.current_charge)) with
            | some nb =>
              let s := assign_battery s rid nb.id
              { s with stats :=
                  { s.stats with battery_swaps := s.stats.battery_swaps + 1 } }
            | none => setRobot s rid (fun r => { r with status := .idle })
          else
            let s := setRobot s rid (fun r =>
              { r with status := .returning, target_vehicle := none })
            (move_towards s rid (find_nearest_charging_station r) 1).1
        else
          match r.status with
          | .idle =>
            setBattery s bid (fun b =>
              { b with current_charge := b.current_charge - r.idle_consumption_rate })
          | .moving_to_vehicle =>
            match r.target_vehicle.bind (getVehicle s) with
            | none =>
              setRobot s rid (fun r =>
                { r with status := .returning, target_vehicle := none })
            | some v =>
              if v.status = .completed ∨ v.status = .failed then
                setRobot s rid (fun r =>
                  { r with status := .returning, target_vehicle := none })
              else
                let res := move_towards s rid v.position 1
                if res.2 then
                  let s := setRobot res.1 rid (fun r =>
                    { r with status := .charging_vehicle })
                  setVehicle s v.id (fun v =>
                    { v with status := .charging
                             charging_start_time := some s.current_time })
                else res.1
          | .charging_vehicle =>
            match r.target_vehicle.bind (getVehicle s) with
            | none =>
              setRobot s rid (fun r =>
                { r with status := .returning, target_vehicle := none })
            | some v =>
              if v.status = .completed ∨ v.status = .failed then
                setRobot s rid (fun r =>
                  { r with status := .returning, target_vehicle := none })
              else
                let abandon : SimState → SimState := fun s =>
                  let s := setRobot s rid (fun r =>
                    { r with status := .returning, target_vehicle := none })
                  let s := setVehicle s v.id (fun v =>
                    { v with status := .waiting, assigned_robot := none })
                  { s with waiting_vehicles := s.waiting_vehicles ++ [v.id] }
                if batt.current_charge < 8 then abandon s
                else
                  let sp := charge_speed v.current_charge
                  let max_transfer := min sp (batt.current_charge - 8)
                  if max_transfer ≤ 0 then abandon s
                  else
                    let efficiency := s.eff_stream.headD 1
                    let s := { s with eff_stream := s.eff_stream.tail }
                    let actual_transfer := max_transfer * efficiency
                    let s := setVehicle s v.id (fun v =>
                      { v with current_charge := v.current_charge + actual_transfer })
                    let s := setBattery s bid (fun b =>
                      { b with current_charge := b.current_charge - max_transfer })
                    if v.required_charge ≤ v.current_charge + actual_transfer then
                      let s := setVehicle s v.id (fun v =>
                        { v with charging_end_time := some s.current_time })
                      handle_task_completion s rid
                    else s
          | .returning =>
            let res := move_towards s rid (find_nearest_charging_station r) 1
            if res.2 then
              setRobot res.1 rid (fun r => { r with status := .idle })
            else res.1
          | .swapping_battery => s

/-- One battery's step of `update_status` (source lines 756-760): station
recharge of a charging battery; `handle_battery_charged` is invoked once
the charge reaches 95 % of capacity (but only flips the status at full
capacity, see `handle_battery_charged`). -/
def update_one_battery (s : SimState) (bid : ℕ) : SimState :=
  match getBattery s bid with
  | none => s
  | some b =>
    if b.status = .charging ∧ CHARGING_STATIONS.contains b.location then
      let res := battery_charge b 1
      let s := setBattery s bid (fun _ => res.1)
      if res.2 ∧ b.max_capacity * 0.95 ≤ res.1.current_charge then
        handle_battery_charged s bid
      else s
    else s

/-- `ChargingSimulation.update_status` (source lines 624-760): all robots
in table (ascending id) order, then all batteries. -/
def update_status (s : SimState) : SimState :=
  let s := (s.robots.map (·.id)).foldl update_one_robot s
  ((s.batteries.map (·.id)).foldl update_one_battery s)

/-! ## The kernel loop `ChargingSimulation.run` (source lines 433-470) -/

/-- Dispatch one popped event to its handler, reposting the periodic kinds
with their fixed periods (2 for `assign_tasks`, 1 for `update_status`, 5
for `update_priorities`), exactly as in the `run` loop body. -/
def handle_event_item (s : SimState) : EventItem → SimState
  | .vehicle_arrival v => handle_vehicle_arrival s v
  | .assign_tasks =>
    let s := assign_tasks s
    { s with events := s.events ++ [(s.current_time + 2, .assign_tasks)] }
  | .update_status =>
    let s := update_status s
    { s with events := s.events ++ [(s.current_time + 1, .update_status)] }
  | .update_priorities =>
    let s := update_vehicle_priorities s
    { s with events := s.events ++ [(s.current_time + 5, .update_priorities)] }
  | .vehicle_departure vid => handle_vehicle_departure s vid
  | .task_completion rid => handle_task_completion s rid
  | .battery_charged bid => handle_battery_charged s bid

/-- One iteration of the `while self.events and self.current_time <
MAX_SIM_TIME` loop: `none` when the loop condition fails, otherwise pop
the earliest event, advance the clock to its timestamp, handle it. -/
def run_step (s : SimState) : Option SimState :=
  if s.current_time < MAX_SIM_TIME then
    match pop_event s.events with
    | none => none
    | some (e, rest) =>
      let s := { s with current_time := e.1, events := rest }
      some (handle_event_item s e.2)
  else none

/-- The kernel loop with explicit fuel; once the loop condition fails the
state is returned unchanged, so any sufficiently large fuel yields the
termination state of `run`. -/
def run_loop : ℕ → SimState → SimState
  | 0, s => s
  | fuel + 1, s =>
    match run_step s with
    | none => s
    | some s' => run_loop fuel s'

/-- The exit condition of the `run` loop: the heap drained or the clock
reached the horizon. -/
def terminated (s : SimState) : Prop :=
  s.events = [] ∨ MAX_SIM_TIME ≤ s.current_time

instance (s : SimState) : Decidable (terminated s) :=
  inferInstanceAs (Decidable (_ ∨ _))

/-! ## The arrival generator and `setup` (source lines 322-431)

Every call to the process-global random generator is modelled by an oracle
stream: the k-th call of each kind returns the oracle's value at index k,
and a counter record tracks how many draws of each kind have been
consumed.  The Poisson RATE computed per minute (peak factor, deep-night
factor, `vehicles_per_hour`) only shapes the distribution the source
samples from; the drawn counts themselves come from the oracle. -/

/-- Values returned by the global RNG: `random.choice` (as an index into
the argument list), `random.random`, `random.uniform(a, b)`,
`random.randint(a, b)` and `np.random.poisson`.  A faithful oracle returns
`uniform a b k ∈ [a, b]` and `randint a b k ∈ [a, b]`; the concrete
oracles used below do. -/
structure Oracle where
  choice : ℕ → ℕ
  rand : ℕ → ℚ
  uniform : ℚ → ℚ → ℕ → ℚ
  randint : ℕ → ℕ → ℕ → ℕ
  poisson : ℕ → ℕ

/-- Per-kind counters of consumed draws. -/
structure RngCtr where
  choice : ℕ
  rand : ℕ
  uniform : ℕ
  randint : ℕ
  poisson : ℕ
deriving DecidableEq, Repr

def initCtr : RngCtr := ⟨0, 0, 0, 0, 0⟩

/-- Accumulator of `generate_vehicle_arrivals`. -/
structure GenAcc where
  ctr : RngCtr
  vehicle_id : ℕ
  events : List Event
deriving DecidableEq, Repr

/-- The horizon in whole minutes (`MAX_SIM_TIME = 300 * 60`, the range of
the generator's minute loop). -/
def MAX_SIM_TIME_MINUTES : ℕ := 300 * 60

/-- One vehicle drawn at `minute` (source lines 384-431): position (road
bias with jitter, clamped to the park, or uniform), dwell by the absolute
peak windows, energies by dwell length, then the arrival event. -/
def gen_one_arrival (o : Oracle) (minute : ℕ) (acc : GenAcc) : GenAcc :=
  let c := acc.ctr
  let mode := o.rand c.rand
  let c := { c with rand := c.rand + 1 }
  let roads : List ℚ := [PARK_WIDTH * 0.25, PARK_WIDTH * 0.5, PARK_WIDTH * 0.75]
  let pc : Pos × RngCtr :=
    if mode < 0.4 then
      let road_x := roads.getD (o.choice c.choice % 3) 0
      let road_y := roads.getD (o.choice (c.choice + 1) % 3) 0
      let jx := o.uniform (-100) 100 c.uniform
      let jy := o.uniform (-100) 100 (c.uniform + 1)
      ((max 0 (min PARK_WIDTH (road_x + jx)), max 0 (min PARK_HEIGHT (road_y + jy))),
       { c with choice := c.choice + 2, uniform := c.uniform + 2 })
    else
      ((o.uniform 0 PARK_WIDTH c.uniform, o.uniform 0 PARK_HEIGHT (c.uniform + 1)),
       { c with uniform := c.uniform + 2 })
  let c := pc.2
  let sc : ℕ × RngCtr :=
    if 420 ≤ minute ∧ minute < 600 then
      (o.randint 180 480 c.randint, { c with randint := c.randint + 1 })
    else if 1020 ≤ minute ∧ minute < 1200 then
      (o.randint 60 240 c.randint, { c with randint := c.randint + 1 })
    else
      (o.randint 30 360 c.randint, { c with randint := c.randint + 1 })
  let stay := sc.1
  let c := sc.2
  let ec : (ℚ × ℚ) × RngCtr :=
    if 240 < stay then
      ((o.uniform 5 30 c.uniform, o.uniform 70 95 (c.uniform + 1)),
       { c with uniform := c.uniform + 2 })
    else
      ((o.uniform 15 50 c.uniform, o.uniform 60 85 (c.uniform + 1)),
       { c with uniform := c.uniform + 2 })
  let v := mkVehicle acc.vehicle_id minute pc.1 ec.1.1 ((minute : ℚ) + stay) ec.1.2
  { ctr := ec.2
    vehicle_id := acc.vehicle_id + 1
    events := acc.events ++ [((minute : ℚ), .vehicle_arrival v)] }

/-- `for _ in range(arrivals)`: draw `n` vehicles at `minute`. -/
def gen_arrivals_n (o : Oracle) (minute : ℕ) : ℕ → GenAcc → GenAcc
  | 0, acc => acc
  | n + 1, acc => gen_arrivals_n o minute n (gen_one_arrival o minute acc)

/-- One minute of the generator: one Poisson draw, then that many
vehicles. -/
def gen_minute (o : Oracle) (minute : ℕ) (acc : GenAcc) : GenAcc :=
  let n := o.poisson acc.ctr.poisson
  let acc := { acc with ctr := { acc.ctr with poisson := acc.ctr.poisson + 1 } }
  gen_arrivals_n o minute n acc

/-- The minute loop of `generate_vehicle_arrivals`, `rem` minutes starting
at `minute`. -/
def generate_from (o : Oracle) : ℕ → ℕ → GenAcc → GenAcc
  | 0, _, acc => acc
  | rem + 1, minute, acc => generate_from o rem (minute + 1) (gen_minute o minute acc)

/-- `ChargingSimulation.generate_vehicle_arrivals` (source lines 352-431):
the whole horizon, minute by minute. -/
def generate_vehicle_arrivals (o : Oracle) (acc : GenAcc) : GenAcc :=
  generate_from o MAX_SIM_TIME_MINUTES 0 acc

/-- Robot creation in `setup`: `Robot(i)` draws its home station by
`random.choice(CHARGING_STATIONS)`. -/
def mk_robots (o : Oracle) : ℕ → ℕ → RngCtr → List Robot × RngCtr
  | 0, _, c => ([], c)
  | n + 1, i, c =>
    let r := mkRobot i (CHARGING_STATIONS.getD (o.choice c.choice % 5) CHARGING_STATION_POS)
    let rest := mk_robots o n (i + 1) { c with choice := c.choice + 1 }
    (r :: rest.1, rest.2)

/-- Battery creation in `setup` (source lines 329-334): battery `i` is
homed and located at station `i mod 5`. -/
def mk_batteries (bc : ℕ) : List Battery :=
  (List.range bc).map (fun i =>
    let st := CHARGING_STATIONS.getD (i % 5) CHARGING_STATION_POS
    { mkBattery i with charging_station := st, location := st })

/-- `ChargingSimulation.__init__` plus `setup` (source lines 279-350):
robots and batteries created, the first `min rc bc` robots paired with the
like-numbered batteries, arrivals generated, and the three periodic events
seeded.  `rc`/`bc` are the scale's robot and battery counts; the scale's
`vehicles_per_hour` only enters the Poisson rate, which the oracle
abstracts.  Returns the initial state and the advanced draw counters. -/
def setup (strategy : Strategy) (rc bc : ℕ) (o : Oracle) (eff : List ℚ)
    (c : RngCtr) : SimState × RngCtr :=
  let rs := mk_robots o rc 0 c
  let robots := rs.1
  let batteries := mk_batteries bc
  let k := min rc bc
  let robots := robots.map (fun r =>
    if r.id < k then { r with battery := some r.id } else r)
  let batteries := batteries.map (fun b =>
    if b.id < k then
      { b with status := .in_use, assigned_robot := some b.id
               location := (robots.find? (fun r => r.id = b.id)).elim b.location (·.position) }
    else b)
  let gen := generate_vehicle_arrivals o ⟨rs.2, 0, []⟩
  let events := gen.events ++
    [((0 : ℚ), .assign_tasks), ((1 : ℚ), .update_status), ((1 : ℚ), .update_priorities)]
  ({ current_time := 0
     events := events
     vehicles := []
     waiting_vehicles := []
     robots := robots
     batteries := batteries
     completed_vehicles := []
     failed_vehicles := []
     stats := initStats
     scheduling_strategy := strategy
     last_assignment_time := 0
     assignment_cache_len := 0
     eff_stream := eff }, gen.ctr)

/-! ## Concrete fixtures

Small states used by the counterexamples and witnesses below.  Each is an
ordinary mid-run situation of the simulator (comments note how it arises). -/

/-- A simulator state with no entities and no events. -/
def emptySim (strategy : Strategy) : SimState :=
  { current_time := 0
    events := []
    vehicles := []
    waiting_vehicles := []
    robots := []
    batteries := []
    completed_vehicles := []
    failed_vehicles := []
    stats := initStats
    scheduling_strategy := strategy
    last_assignment_time := 0
    assignment_cache_len := 0
    eff_stream := [] }

/-- A battery mid-recharge at its station, just under capacity: charge 57
of 60 (95 % of capacity is 57). -/
def fixtureC3 : SimState :=
  { emptySim .nearest_first with
    batteries := [{ mkBattery 0 with current_charge := 57, status := .charging }] }

/-- A robot caught mid-charge with its battery at 9 (inside `[8, 10)`),
away from any station: it serves vehicle 0 at `(53, 54)` (distance 5 from
the canonical station). -/
def fixtureC5 : SimState :=
  { emptySim .nearest_first with
    robots := [{ mkRobot 0 (50, 50) with
      position := (53, 54), status := .charging_vehicle
      battery := some 0, target_vehicle := some 0 }]
    batteries := [{ mkBattery 0 with
      current_charge := 9, status := .in_use
      assigned_robot := some 0, location := (53, 54) }]
    vehicles := [{ mkVehicle 0 0 (53, 54) 30 500 80 with
      status := .charging, assigned_robot := some 0
      charging_start_time := some 0 }] }

/-- A robot that returned to the station `(900, 900)` — not the home
station `(50, 50)` of the battery it carries — with the battery depleted
to 9. -/
def fixtureC9 : SimState :=
  { emptySim .nearest_first with
    robots := [{ mkRobot 0 (900, 900) with
      battery := some 0, status := .returning }]
    batteries := [{ mkBattery 0 with
      current_charge := 9, status := .in_use
      assigned_robot := some 0, location := (900, 900) }] }

/-- The hybrid policy about to assign: one idle robot at `(50, 50)` with a
battery at 30, one waiting vehicle at the same spot needing 48 units
(current 30, required 78, departing at minute 500). -/
def fixtureC4 : SimState :=
  { emptySim .hybrid_strategy with
    robots := [{ mkRobot 0 (50, 50) with battery := some 0 }]
    batteries := [{ mkBattery 0 with
      current_charge := 30, status := .in_use, assigned_robot := some 0 }]
    vehicles := [mkVehicle 0 0 (50, 50) 30 500 78]
    waiting_vehicles := [0] }

/-- An oracle whose uniform and randint draws return the low end of the
requested range, with no arrivals. -/
def oracle_low : Oracle :=
  { choice := fun _ => 0
    rand := fun _ => 1/2
    uniform := fun a _ _ => a
    randint := fun a _ _ => a
    poisson := fun _ => 0 }

/-- A robot mid-transfer: charging vehicle 0 (charge 50 of required 95)
with battery 0 at 20; the next efficiency draw is 1. -/
def fixtureC8 : SimState :=
  { emptySim .nearest_first with
    robots := [{ mkRobot 0 (50, 50) with
      position := (10, 10), status := .charging_vehicle
      battery := some 0, target_vehicle := some 0 }]
    batteries := [{ mkBattery 0 with
      current_charge := 20, status := .in_use
      assigned_robot := some 0, location := (10, 10) }]
    vehicles := [{ mkVehicle 0 0 (10, 10) 50 500 95 with
      status := .charging, assigned_robot := some 0
      charging_start_time := some 0 }]
    eff_stream := [1] }

/-! ## Battery-location invariant (C9)

The invariant provable about battery locations: every available or
charging battery sits at SOME charging station.  The auxiliary conjuncts
(held batteries are in-use, two holders of one battery share an id) are
the facts about ownership that the per-tick updater maintains and needs. -/

/-- Available and charging batteries are located at charging stations. -/
def battery_station_inv (s : SimState) : Prop :=
  ∀ b ∈ s.batteries, (b.status = .available ∨ b.status = .charging) →
    b.location ∈ CHARGING_STATIONS

/-- A battery held by some robot is in-use. -/
def held_inv (s : SimState) : Prop :=
  ∀ r ∈ s.robots, ∀ bid, r.battery = some bid →
    ∀ b ∈ s.batteries, b.id = bid → b.status = .in_use

/-- Two robots holding the same battery share an id (so an id-keyed
update releases every holder at once). -/
def holders_unique (s : SimState) : Prop :=
  ∀ r1 ∈ s.robots, ∀ r2 ∈ s.robots, ∀ bid,
    r1.battery = some bid → r2.battery = some bid → r1.id = r2.id

/-- The combined battery-ownership invariant. -/
def C9Inv (s : SimState) : Prop :=
  battery_station_inv s ∧ held_inv s ∧ holders_unique s

/-! ## Bookkeeping invariant of the completion/failure counters (C6) -/

/-- The two statistics counters always equal the lengths of the
corresponding bookkeeping lists: every counted vehicle was actually
processed by `handle_task_completion` or `handle_vehicle_departure`. -/
def CountInv (s : SimState) : Prop :=
  s.stats.completed_count = s.completed_vehicles.length ∧
  s.stats.failed_count = s.failed_vehicles.length

/-- A run ending exactly at the horizon: at minute 17998, the queue holds
the periodic `assign_tasks` pass stamped at the horizon 18000 and the
departure of vehicle 0, also stamped 18000 (its generated departure
minute).  `assign_tasks` events are re-posted every 2 minutes starting at
time 0, so a horizon-stamped assignment pass coexisting with
horizon-stamped departure events is how every real run ends. -/
def fixtureC6 : SimState :=
  { emptySim .nearest_first with
    current_time := 17998
    events := [((18000 : ℚ), .assign_tasks), ((18000 : ℚ), .vehicle_departure 0)]
    vehicles := [mkVehicle 0 17940 (10, 10) 20 18000 80]
    waiting_vehicles := [0] }

/-! ## Table lemmas -/

theorem setVehicle_robots (s : SimState) (i : ℕ) (f : Vehicle → Vehicle) :
    (setVehicle s i f).robots = s.robots := rfl

theorem setVehicle_batteries (s : SimState) (i : ℕ) (f : Vehicle → Vehicle) :
    (setVehicle s i f).batteries = s.batteries := rfl

theorem setRobot_vehicles (s : SimState) (i : ℕ) (f : Robot → Robot) :
    (setRobot s i f).vehicles = s.vehicles := rfl

theorem setRobot_batteries (s : SimState) (i : ℕ) (f : Robot → Robot) :
    (setRobot s i f).batteries = s.batteries := rfl

theorem setBattery_vehicles (s : SimState) (i : ℕ) (f : Battery → Battery) :
    (setBattery s i f).vehicles = s.vehicles := rfl

theorem setBattery_robots (s : SimState) (i : ℕ) (f : Battery → Battery) :
    (setBattery s i f).robots = s.robots := rfl

/-- Updating the entries of key `i` and then looking key `i` up finds the
updated first match, provided the update preserves the key. -/
theorem find_map_ite {α : Type} (key : α → ℕ) (i : ℕ) (f : α → α)
    (hf : ∀ a, key a = i → key (f a) = i) :
    ∀ l : List α,
      (l.map (fun a => if key a = i then f a else a)).find? (fun a => key a = i)
        = (l.find? (fun a => key a = i)).map f
  | [] => rfl
  | a :: l => by
    by_cases h : key a = i
    · simp [List.find?, h, hf a h]
    · simp [List.find?, h, find_map_ite key i f hf l]

/-- Updating the entries of key `i` does not disturb lookups of a
different key `j`. -/
theorem find_map_ite_ne {α : Type} (key : α → ℕ) (i j : ℕ) (f : α → α)
    (hij : j ≠ i) (hf : ∀ a, key a = i → key (f a) = i) :
    ∀ l : List α,
      (l.map (fun a => if key a = i then f a else a)).find? (fun a => key a = j)
        = l.find? (fun a => key a = j)
  | [] => rfl
  | a :: l => by
    by_cases h : key a = i
    · have h2 : decide (key (f a) = j) = false := by
        simp only [decide_eq_false_iff_not]
        rw [hf a h]; exact fun hh => hij hh.symm
      have h3 : decide (key a = j) = false := by
        simp only [decide_eq_false_iff_not]
        rw [h]; exact fun hh => hij hh.symm
      simp only [List.map, List.find?, if_pos h, h2, h3]
      exact find_map_ite_ne key i j f hij hf l
    · by_cases h4 : key a = j
      · have h5 : decide (key a = j) = true := decide_eq_true h4
        simp only [List.map, List.find?, if_neg h, h5]
      · have h5 : decide (key a = j) = false := by
          simp only [decide_eq_false_iff_not]; exact h4
        simp only [List.map, List.find?, if_neg h, h5]
        exact find_map_ite_ne key i j f hij hf l

/-- A key-preserving, projection-preserving update leaves every lookup's
projection unchanged. -/
theorem find_map_proj {α β : Type} (key : α → ℕ) (proj : α → β) (i j : ℕ)
    (f : α → α) (hf : ∀ a, key (f a) = key a) (hp : ∀ a, proj (f a) = proj a) :
    ∀ l : List α,
      ((l.map (fun a => if key a = i then f a else a)).find?
          (fun a => key a = j)).map proj
        = (l.find? (fun a => key a = j)).map proj
  | [] => rfl
  | a :: l => by
    by_cases h : key a = i
    · by_cases h4 : key a = j
      · have h2 : decide (key (f a) = j) = true := decide_eq_true (by rw [hf a, h4])
        have h5 : decide (key a = j) = true := decide_eq_true h4
        simp only [List.map, List.find?, if_pos h, h2, h5, Option.map_some', hp a]
      · have h2 : decide (key (f a) = j) = false := by
          simp only [decide_eq_false_iff_not]; rw [hf a]; exact h4
        have h5 : decide (key a = j) = false := by
          simp only [decide_eq_false_iff_not]; exact h4
        simp only [List.map, List.find?, if_pos h, h2, h5]
        exact find_map_proj key proj i j f hf hp l
    · by_cases h4 : key a = j
      · have h5 : decide (key a = j) = true := decide_eq_true h4
        simp only [List.map, List.find?, if_neg h, h5]
      · have h5 : decide (key a = j) = false := by
          simp only [decide_eq_false_iff_not]; exact h4
        simp only [List.map, List.find?, if_neg h, h5]
        exact find_map_proj key proj i j f hf hp l

theorem getVehicle_setVehicle (s : SimState) (vid : ℕ) (f : Vehicle → Vehicle)
    (hf : ∀ v, v.id = vid → (f v).id = vid) :
    getVehicle (setVehicle s vid f) vid = (getVehicle s vid).map f := by
  unfold getVehicle setVehicle
  exact find_map_ite (fun v => v.id) vid f hf s.vehicles

theorem getBattery_setBattery (s : SimState) (bid : ℕ) (f : Battery → Battery)
    (hf : ∀ b, b.id = bid → (f b).id = bid) :
    getBattery (setBattery s bid f) bid = (getBattery s bid).map f := by
  unfold getBattery setBattery
  exact find_map_ite (fun b => b.id) bid f hf s.batteries

theorem getRobot_setRobot (s : SimState) (rid : ℕ) (f : Robot → Robot)
    (hf : ∀ r, r.id = rid → (f r).id = rid) :
    getRobot (setRobot s rid f) rid = (getRobot s rid).map f := by
  unfold getRobot setRobot
  exact find_map_ite (fun r => r.id) rid f hf s.robots

theorem getRobot_setBattery (s : SimState) (i j : ℕ) (f : Battery → Battery) :
    getRobot (setBattery s i f) j = getRobot s j := rfl

theorem getRobot_setVehicle (s : SimState) (i j : ℕ) (f : Vehicle → Vehicle) :
    getRobot (setVehicle s i f) j = getRobot s j := rfl

theorem getVehicle_setRobot (s : SimState) (i j : ℕ) (f : Robot → Robot) :
    getVehicle (setRobot s i f) j = getVehicle s j := rfl

theorem getVehicle_setBattery (s : SimState) (i j : ℕ) (f : Battery → Battery) :
    getVehicle (setBattery s i f) j = getVehicle s j := rfl

theorem getBattery_setRobot (s : SimState) (i j : ℕ) (f : Robot → Robot) :
    getBattery (setRobot s i f) j = getBattery s j := rfl

theorem getBattery_setVehicle (s : SimState) (i j : ℕ) (f : Vehicle → Vehicle) :
    getBattery (setVehicle s i f) j = getBattery s j := rfl

/-- An id- and projection-preserving robot update leaves the projection of
every robot lookup unchanged. -/
theorem getRobot_proj_setRobot {β : Type} (proj : Robot → β) (s : SimState)
    (rid j : ℕ) (f : Robot → Robot) (hf : ∀ r, (f r).id = r.id)
    (hp : ∀ r, proj (f r) = proj r) :
    (getRobot (setRobot s rid f) j).map proj = (getRobot s j).map proj := by
  unfold getRobot setRobot
  exact find_map_proj (fun r => r.id) proj rid j f hf hp s.robots

theorem move_towards_vehicles (s : SimState) (rid : ℕ) (t : Pos) (dt : ℚ) :
    (move_towards s rid t dt).1.vehicles = s.vehicles := by
  unfold move_towards
  cases h : getRobot s rid with
  | none => rfl
  | some r =>
    by_cases h1 : r.position = t
    · simp [h1]
    · cases h2 : r.battery <;>
        by_cases h3 : (t.1 - r.position.1) ^ 2 + (t.2 - r.position.2) ^ 2
            ≤ (r.speed * dt) ^ 2 <;>
        simp [h1, h2, h3, setRobot, setBattery]

theorem move_towards_waiting (s : SimState) (rid : ℕ) (t : Pos) (dt : ℚ) :
    (move_towards s rid t dt).1.waiting_vehicles = s.waiting_vehicles := by
  unfold move_towards
  cases h : getRobot s rid with
  | none => rfl
  | some r =>
    by_cases h1 : r.position = t
    · simp [h1]
    · cases h2 : r.battery <;>
        by_cases h3 : (t.1 - r.position.1) ^ 2 + (t.2 - r.position.2) ^ 2
            ≤ (r.speed * dt) ^ 2 <;>
        simp [h1, h2, h3, setRobot, setBattery]

/-- Movement changes a robot's position and battery only: its status and
target pointer project through unchanged. -/
theorem move_towards_status (s : SimState) (rid : ℕ) (t : Pos) (dt : ℚ) (j : ℕ) :
    (getRobot (move_towards s rid t dt).1 j).map (fun r => (r.status, r.target_vehicle))
      = (getRobot s j).map (fun r => (r.status, r.target_vehicle)) := by
  unfold move_towards
  cases h : getRobot s rid with
  | none => rfl
  | some r =>
    by_cases h1 : r.position = t
    · simp [h1]
    · have hproj : ∀ g : Robot → Pos,
          (getRobot (setRobot s rid (fun r => { r with position := g r })) j).map
              (fun r => (r.status, r.target_vehicle))
            = (getRobot s j).map (fun r => (r.status, r.target_vehicle)) := by
        intro g
        exact getRobot_proj_setRobot _ s rid j _ (fun r => rfl) (fun r => rfl)
      cases h2 : r.battery <;>
        by_cases h3 : (t.1 - r.position.1) ^ 2 + (t.2 - r.position.2) ^ 2
            ≤ (r.speed * dt) ^ 2 <;>
        simp [h1, h2, h3, getRobot_setBattery, hproj]

theorem retreat_batteries (s : SimState) (rid : ℕ) :
    (completion_low_battery_retreat s rid).batteries = s.batteries := by
  unfold completion_low_battery_retreat
  repeat' split
  all_goals simp [setRobot]

theorem getVehicle_retreat (s : SimState) (rid vid : ℕ) :
    getVehicle (completion_low_battery_retreat s rid) vid = getVehicle s vid := by
  unfold completion_low_battery_retreat
  repeat' split
  all_goals simp [getVehicle_setRobot]

/-- Task completion never touches the battery table. -/
theorem handle_task_completion_batteries (s : SimState) (rid : ℕ) :
    (handle_task_completion s rid).batteries = s.batteries := by
  unfold handle_task_completion
  repeat' split
  all_goals simp [setRobot, setVehicle, retreat_batteries]

theorem getBattery_handle_task_completion (s : SimState) (rid bid : ℕ) :
    getBattery (handle_task_completion s rid) bid = getBattery s bid := by
  unfold getBattery
  rw [handle_task_completion_batteries]

/-- Task completion never changes any vehicle's current charge. -/
theorem handle_task_completion_vcharge (s : SimState) (rid vid : ℕ) :
    (getVehicle (handle_task_completion s rid) vid).map (fun v => v.current_charge)
      = (getVehicle s vid).map (fun v => v.current_charge) := by
  have hA : ∀ (l : List Vehicle) (i : ℕ) (t : Option ℚ),
      ((l.map (fun v => if v.id = i then
          { v with status := VehicleStatus.completed, charging_end_time := t }
        else v)).find? (fun v => v.id = vid)).map (fun v => v.current_charge)
        = (l.find? (fun v => v.id = vid)).map (fun v => v.current_charge) :=
    fun l i t =>
      find_map_proj (fun v => v.id) (fun v => v.current_charge) i vid
        (fun v => { v with status := VehicleStatus.completed, charging_end_time := t })
        (fun a => rfl) (fun a => rfl) l
  have hB : ∀ (l : List Vehicle) (i : ℕ),
      ((l.map (fun v => if v.id = i then { v with assigned_robot := none }
        else v)).find? (fun v => v.id = vid)).map (fun v => v.current_charge)
        = (l.find? (fun v => v.id = vid)).map (fun v => v.current_charge) :=
    fun l i =>
      find_map_proj (fun v => v.id) (fun v => v.current_charge) i vid
        (fun v => { v with assigned_robot := none })
        (fun a => rfl) (fun a => rfl) l
  unfold handle_task_completion
  repeat' split
  all_goals try simp only [getVehicle_retreat]
  all_goals try simp only [getVehicle, setVehicle, setRobot]
  all_goals try simp only [hA, hB]

theorem charge_speed_pos (x : ℚ) : 0 < charge_speed x := by
  unfold charge_speed
  split_ifs <;> norm_num

/-- The state after the charging-transfer step of `update_one_robot`, for
a robot mid-charge whose target is valid: the common path taken by the
C8 and C10 proofs.  `mt` is the transferred amount. -/
theorem charging_transfer_step (s : SimState) (rid : ℕ) (r : Robot)
    (bid : ℕ) (batt : Battery) (vid : ℕ) (v : Vehicle)
    (hr : getRobot s rid = some r) (hb : r.battery = some bid)
    (hbatt : getBattery s bid = some batt)
    (hnotlow : ¬ batt.current_charge < 10)
    (hst : r.status = .charging_vehicle)
    (htv : r.target_vehicle = some vid) (hv : getVehicle s vid = some v)
    (hvst : ¬ (v.status = .completed ∨ v.status = .failed)) :
    (getBattery (update_one_robot s rid) bid = some
        { batt with current_charge := (batt.current_charge
            - min (charge_speed v.current_charge) (batt.current_charge - 8)) }) ∧
    ((getVehicle (update_one_robot s rid) vid).map (fun v => v.current_charge)
      = some (v.current_charge
          + min (charge_speed v.current_charge) (batt.current_charge - 8)
            * s.eff_stream.headD 1)) := by
  have h8 : ¬ batt.current_charge < 8 := fun h => hnotlow (h.trans (by norm_num))
  have hmtpos : ¬ (min (charge_speed v.current_charge) (batt.current_charge - 8) ≤ 0) := by
    rw [not_le]
    refine lt_min (charge_speed_pos v.current_charge) ?_
    rw [not_lt] at hnotlow
    linarith
  have hvid : v.id = vid := by simpa using List.find?_some hv
  have hbid : batt.id = bid := by simpa using List.find?_some hbatt
  subst hvid
  subst hbid
  unfold update_one_robot
  simp only [hr, hb, hbatt, hst, htv, Option.bind, hv]
  rw [if_neg hnotlow]
  rw [if_neg hvst, if_neg h8, if_neg hmtpos]
  set mt := min (charge_speed v.current_charge) (batt.current_charge - 8) with hmt
  set eff := s.eff_stream.headD 1 with heff
  set s0 := { s with eff_stream := s.eff_stream.tail } with hs0
  set s1 := setVehicle s0 v.id (fun v =>
    { v with current_charge := v.current_charge + mt * eff }) with hs1
  set s2 := setBattery s1 batt.id (fun b =>
    { b with current_charge := b.current_charge - mt }) with hs2
  have hgv1 : getVehicle s1 v.id = some
      { v with current_charge := v.current_charge + mt * eff } := by
    rw [hs1, getVehicle_setVehicle _ v.id (fun v =>
      { v with current_charge := v.current_charge + mt * eff }) (fun a ha => ha)]
    have : getVehicle s0 v.id = getVehicle s v.id := rfl
    rw [this, hv]
    rfl
  have hgb2 : getBattery s2 batt.id = some
      { batt with current_charge := batt.current_charge - mt } := by
    rw [hs2, getBattery_setBattery _ batt.id (fun b =>
      { b with current_charge := b.current_charge - mt }) (fun a ha => ha)]
    have : getBattery s1 batt.id = getBattery s0 batt.id := by
      rw [hs1]; exact getBattery_setVehicle s0 v.id batt.id _
    rw [this]
    have : getBattery s0 batt.id = getBattery s batt.id := rfl
    rw [this, hbatt]
    rfl
  have hgv2 : (getVehicle s2 v.id).map (fun v => v.current_charge)
      = some (v.current_charge + mt * eff) := by
    rw [hs2]
    rw [getVehicle_setBattery s1 batt.id v.id _, hgv1]
    rfl
  constructor
  · split
    · rw [getBattery_handle_task_completion, getBattery_setVehicle]
      exact hgb2
    · exact hgb2
  · split
    · rw [handle_task_completion_vcharge]
      have : (getVehicle (setVehicle s2 v.id (fun v =>
          { v with charging_end_time := some s2.current_time })) v.id).map
            (fun v => v.current_charge)
          = (getVehicle s2 v.id).map (fun v => v.current_charge) := by
        unfold getVehicle setVehicle
        exact find_map_proj (fun v => v.id) (fun v => v.current_charge) v.id v.id
          (fun v => { v with charging_end_time := some s2.current_time })
          (fun a => rfl) (fun a => rfl) s2.vehicles
      rw [this]
      exact hgv2
    · exact hgv2

/-! ## Preservation of the battery-ownership invariant -/

theorem mem_map_ite {α : Type} (key : α → ℕ) (i : ℕ) (f : α → α) (b' : α)
    (l : List α) :
    b' ∈ l.map (fun a => if key a = i then f a else a) ↔
      ∃ a ∈ l, b' = if key a = i then f a else a := by
  simp only [List.mem_map]
  constructor
  · rintro ⟨a, ha, rfl⟩; exact ⟨a, ha, rfl⟩
  · rintro ⟨a, ha, rfl⟩; exact ⟨a, ha, rfl⟩

theorem mem_setRobot (s : SimState) (i : ℕ) (f : Robot → Robot) (r : Robot)
    (hr : r ∈ (setRobot s i f).robots) :
    ∃ a ∈ s.robots, r = if a.id = i then f a else a := by
  unfold setRobot at hr
  exact (mem_map_ite (fun r => r.id) i f r s.robots).mp hr

theorem mem_setBattery (s : SimState) (i : ℕ) (f : Battery → Battery) (b : Battery)
    (hb : b ∈ (setBattery s i f).batteries) :
    ∃ a ∈ s.batteries, b = if a.id = i then f a else a := by
  unfold setBattery at hb
  exact (mem_map_ite (fun b => b.id) i f b s.batteries).mp hb

/-- Vehicle updates do not affect the battery-ownership invariant. -/
theorem C9Inv_setVehicle (s : SimState) (i : ℕ) (f : Vehicle → Vehicle)
    (h : C9Inv s) : C9Inv (setVehicle s i f) := h

/-- Robot updates that keep the id and the held battery preserve the
invariant. -/
theorem C9Inv_setRobot (s : SimState) (i : ℕ) (f : Robot → Robot)
    (hf : ∀ r, (f r).id = r.id ∧ (f r).battery = r.battery)
    (h : C9Inv s) : C9Inv (setRobot s i f) := by
  obtain ⟨h1, h2, h3⟩ := h
  refine ⟨h1, ?_, ?_⟩
  · intro r hr bid hb b hbmem hbid
    rcases mem_setRobot s i f r hr with ⟨r0, hr0, rfl⟩
    by_cases hc : r0.id = i
    · rw [if_pos hc, (hf r0).2] at hb
      exact h2 r0 hr0 bid hb b hbmem hbid
    · rw [if_neg hc] at hb
      exact h2 r0 hr0 bid hb b hbmem hbid
  · intro r1 hr1 r2 hr2 bid hb1 hb2
    rcases mem_setRobot s i f r1 hr1 with ⟨a1, ha1, rfl⟩
    rcases mem_setRobot s i f r2 hr2 with ⟨a2, ha2, rfl⟩
    have e1 : (if a1.id = i then f a1 else a1).id = a1.id := by
      split
      · exact (hf a1).1
      · rfl
    have e2 : (if a2.id = i then f a2 else a2).id = a2.id := by
      split
      · exact (hf a2).1
      · rfl
    have e3 : (if a1.id = i then f a1 else a1).battery = a1.battery := by
      split
      · exact (hf a1).2
      · rfl
    have e4 : (if a2.id = i then f a2 else a2).battery = a2.battery := by
      split
      · exact (hf a2).2
      · rfl
    rw [e1, e2]
    exact h3 a1 ha1 a2 ha2 bid (by rw [← e3]; exact hb1) (by rw [← e4]; exact hb2)

/-- Battery updates that keep id, status and location preserve the
invariant (pure charge changes). -/
theorem C9Inv_setBattery_charge (s : SimState) (i : ℕ) (f : Battery → Battery)
    (hf : ∀ b, (f b).id = b.id ∧ (f b).status = b.status ∧ (f b).location = b.location)
    (h : C9Inv s) : C9Inv (setBattery s i f) := by
  obtain ⟨h1, h2, h3⟩ := h
  refine ⟨?_, ?_, h3⟩
  · intro b hb hst
    rcases mem_setBattery s i f b hb with ⟨b0, hb0, rfl⟩
    by_cases hc : b0.id = i
    · rw [if_pos hc] at hst ⊢
      rw [(hf b0).2.2]
      exact h1 b0 hb0 (by rw [← (hf b0).2.1]; exact hst)
    · rw [if_neg hc] at hst ⊢
      exact h1 b0 hb0 hst
  · intro r hr bid hbat b hb hbid
    rcases mem_setBattery s i f b hb with ⟨b0, hb0, rfl⟩
    by_cases hc : b0.id = i
    · rw [if_pos hc] at hbid ⊢
      rw [(hf b0).2.1]
      exact h2 r hr bid hbat b0 hb0 (by rw [← (hf b0).1]; exact hbid)
    · rw [if_neg hc] at hbid ⊢
      exact h2 r hr bid hbat b0 hb0 hbid

/-- Battery updates that keep id and status preserve the invariant
provided every battery of that id is in-use (a held battery being dragged
along by its robot). -/
theorem C9Inv_setBattery_held (s : SimState) (i : ℕ) (f : Battery → Battery)
    (hf : ∀ b, (f b).id = b.id ∧ (f b).status = b.status)
    (hin : ∀ b ∈ s.batteries, b.id = i → b.status = .in_use)
    (h : C9Inv s) : C9Inv (setBattery s i f) := by
  obtain ⟨h1, h2, h3⟩ := h
  refine ⟨?_, ?_, h3⟩
  · intro b hb hst
    rcases mem_setBattery s i f b hb with ⟨b0, hb0, rfl⟩
    by_cases hc : b0.id = i
    · rw [if_pos hc] at hst
      have hu : (f b0).status = .in_use := by rw [(hf b0).2]; exact hin b0 hb0 hc
      rcases hst with hst | hst <;> rw [hu] at hst <;> exact absurd hst (by simp)
    · rw [if_neg hc] at hst ⊢
      exact h1 b0 hb0 hst
  · intro r hr bid hbat b hb hbid
    rcases mem_setBattery s i f b hb with ⟨b0, hb0, rfl⟩
    by_cases hc : b0.id = i
    · rw [if_pos hc] at hbid ⊢
      rw [(hf b0).2]
      exact h2 r hr bid hbat b0 hb0 (by rw [← (hf b0).1]; exact hbid)
    · rw [if_neg hc] at hbid ⊢
      exact h2 r hr bid hbat b0 hb0 hbid

theorem contains_mem_stations (p : Pos) (h : CHARGING_STATIONS.contains p = true) :
    p ∈ CHARGING_STATIONS := by
  rw [List.contains, List.elem_iff] at h
  exact h

theorem station_getD_mem (n : ℕ) (h : n < 5) :
    CHARGING_STATIONS.getD n CHARGING_STATION_POS ∈ CHARGING_STATIONS := by
  interval_cases n <;> simp [CHARGING_STATIONS, List.getD]

/-- A battery whose id is not the assigned one is untouched by
`assign_battery`. -/
theorem mem_assign_battery_of_ne (s : SimState) (rid nbid : ℕ) (b : Battery)
    (hb : b ∈ (assign_battery s rid nbid).batteries) (hne : b.id ≠ nbid) :
    b ∈ s.batteries := by
  unfold assign_battery at hb
  cases hgr : getRobot s rid with
  | none => rw [hgr] at hb; exact hb
  | some r =>
    rw [hgr] at hb
    rcases mem_setBattery _ nbid _ b hb with ⟨a, ha, rfl⟩
    by_cases hc : a.id = nbid
    · rw [if_pos hc] at hne ⊢
      exact absurd hc hne
    · rw [if_neg hc]
      exact ha

/-- The battery-drop branch of `update_one_robot` (source lines 639-659):
when a robot standing at a charging station finds its battery below 10, the
battery is left charging at the robot's CURRENT position; every battery
record of that id in the result is charging there, whatever replacement
battery the robot then picks up. -/
theorem drop_branch_batteries (s : SimState) (rid : ℕ) (r : Robot) (bid : ℕ)
    (batt : Battery) (hr : getRobot s rid = some r) (hrb : r.battery = some bid)
    (hbt : getBattery s bid = some batt) (hlt : batt.current_charge < 10)
    (hst : CHARGING_STATIONS.contains r.position = true) :
    ∀ b ∈ (update_one_robot s rid).batteries, b.id = bid →
      b.status = .charging ∧ b.location = r.position := by
  have hcore : ∀ b ∈ (setRobot (setBattery s bid (fun b =>
        { b with status := .charging, assigned_robot := none
                 charge_start_time := some s.current_time
                 location := r.position })) rid
        (fun r => { r with battery := none })).batteries, b.id = bid →
      b.status = .charging ∧ b.location = r.position := by
    intro b hb hbid
    rcases mem_setBattery s bid _ b hb with ⟨a, ha, rfl⟩
    by_cases hc : a.id = bid
    · rw [if_pos hc]
      exact ⟨rfl, rfl⟩
    · rw [if_neg hc] at hbid ⊢
      exact absurd hbid hc
  simp only [update_one_robot, hr, hrb, hbt]
  rw [if_pos hlt, if_pos hst]
  intro b hb hbid
  split at hb
  · rename_i nb hfind
    have hnb_mem := List.mem_of_find?_eq_some hfind
    have hnb_pred := List.find?_some hfind
    have hnb_av : nb.status = .available := by
      simp only [Bool.and_eq_true, decide_eq_true_eq] at hnb_pred
      exact hnb_pred.1
    have hne : nb.id ≠ bid := by
      intro h
      have := (hcore nb hnb_mem h).1
      rw [hnb_av] at this
      exact absurd this (by simp)
    exact hcore b (mem_assign_battery_of_ne _ rid nb.id b hb
      (by rw [hbid]; exact fun h => hne h.symm)) hbid
  · exact hcore b hb hbid

/-! ## Preservation of the counter bookkeeping invariant -/

theorem CountInv_setVehicle (s : SimState) (i : ℕ) (f : Vehicle → Vehicle)
    (h : CountInv s) : CountInv (setVehicle s i f) := h

theorem CountInv_setRobot (s : SimState) (i : ℕ) (f : Robot → Robot)
    (h : CountInv s) : CountInv (setRobot s i f) := h

theorem CountInv_setBattery (s : SimState) (i : ℕ) (f : Battery → Battery)
    (h : CountInv s) : CountInv (setBattery s i f) := h

theorem CountInv_assign_battery (s : SimState) (rid bid : ℕ)
    (h : CountInv s) : CountInv (assign_battery s rid bid) := by
  unfold assign_battery
  split <;> exact h

theorem CountInv_move_towards (s : SimState) (rid : ℕ) (target : Pos)
    (te : ℚ) (h : CountInv s) : CountInv (move_towards s rid target te).1 := by
  unfold move_towards
  split
  · exact h
  · split
    · exact h
    · split
      · dsimp only
        split <;> exact h
      · dsimp only
        split <;> exact h

theorem CountInv_handle_battery_charged (s : SimState) (bid : ℕ)
    (h : CountInv s) : CountInv (handle_battery_charged s bid) := by
  unfold handle_battery_charged
  split
  · exact h
  · split <;> exact h

theorem CountInv_update_zone_coverage (s : SimState) (p : Pos)
    (h : CountInv s) : CountInv (update_zone_coverage s p) := by
  unfold update_zone_coverage
  split <;> exact h

theorem CountInv_update_vehicle_priorities (s : SimState)
    (h : CountInv s) : CountInv (update_vehicle_priorities s) := h

theorem CountInv_handle_vehicle_departure (s : SimState) (vid : ℕ)
    (h : CountInv s) : CountInv (handle_vehicle_departure s vid) := by
  have h2 : CountInv { setVehicle s vid (fun v => { v with status := .failed }) with
      failed_vehicles := s.failed_vehicles ++ [vid]
      stats := { s.stats with failed_count := s.stats.failed_count + 1 } } := by
    refine ⟨h.1, ?_⟩
    dsimp only [setVehicle]
    simp only [List.length_append, List.length_singleton, h.2]
  unfold handle_vehicle_departure
  split
  · exact h
  · split
    · exact h
    · split
      · exact h2
      · dsimp only
        split
        · exact h2
        · split <;> exact h2

theorem CountInv_completion_low_battery_retreat (s : SimState) (rid : ℕ)
    (h : CountInv s) : CountInv (completion_low_battery_retreat s rid) := by
  unfold completion_low_battery_retreat
  split
  · exact h
  · split
    · exact h
    · split
      · exact h
      · split <;> exact h

theorem CountInv_handle_task_completion (s : SimState) (rid : ℕ)
    (h : CountInv s) : CountInv (handle_task_completion s rid) := by
  unfold handle_task_completion
  split
  · exact h
  · split
    · exact h
    · split
      · exact h
      · split
        · exact h
        · refine CountInv_completion_low_battery_retreat _ rid
            (CountInv_setVehicle _ _ _ (CountInv_setRobot _ rid _ ?_))
          split
          · dsimp only
            split
            · refine ⟨?_, h.2⟩
              dsimp only [setVehicle]
              simp only [List.length_append, List.length_singleton, h.1]
            · refine ⟨?_, h.2⟩
              dsimp only [setVehicle]
              simp only [List.length_append, List.length_singleton, h.1]
          · exact h

theorem CountInv_effect_assignment (s : SimState) (rid vid : ℕ)
    (h : CountInv s) : CountInv (effect_assignment s rid vid) := h

theorem CountInv_assign_emergency_go (s : SimState) (v : Vehicle) :
    ∀ l : List Robot, CountInv s → CountInv (assign_emergency_go s v l).1
  | [], h => h
  | r :: rest, h => by
    unfold assign_emergency_go
    dsimp only
    split
    · exact CountInv_assign_emergency_go s v rest h
    · split
      · exact h
      · exact CountInv_assign_emergency_go s v rest h

theorem CountInv_assign_emergency_task (s : SimState) (v : Vehicle)
    (h : CountInv s) : CountInv (assign_emergency_task s v).1 := by
  unfold assign_emergency_task
  dsimp only
  split
  · exact h
  · exact CountInv_assign_emergency_go s v _ h

theorem CountInv_handle_vehicle_arrival (s : SimState) (v : Vehicle)
    (h : CountInv s) : CountInv (handle_vehicle_arrival s v) := by
  unfold handle_vehicle_arrival
  dsimp only
  split
  · exact CountInv_assign_emergency_task _ _
      (CountInv_update_zone_coverage _ _ h)
  · exact CountInv_update_zone_coverage _ _ h

theorem CountInv_nearest_first_try (s : SimState) (r : Robot) :
    ∀ l : List (Vehicle × ℚ), CountInv s → CountInv (nearest_first_try s r l)
  | [], h => h
  | (v, d2) :: rest, h => by
    unfold nearest_first_try
    dsimp only
    split
    · exact CountInv_nearest_first_try s r rest h
    · split
      · exact h
      · exact CountInv_nearest_first_try s r rest h

theorem CountInv_assign_nearest_first :
    ∀ (l : List Robot) (s : SimState), CountInv s →
      CountInv (assign_nearest_first s l)
  | [], _, h => h
  | r :: rest, s, h => by
    unfold assign_nearest_first
    dsimp only
    split
    · exact h
    · exact CountInv_assign_nearest_first rest _
        (CountInv_nearest_first_try s r _ h)

theorem CountInv_vehicle_major_try (s : SimState) (v : Vehicle) :
    ∀ l : List (Robot × ℚ), CountInv s → CountInv (vehicle_major_try s v l).1
  | [], h => h
  | (r, d2) :: rest, h => by
    unfold vehicle_major_try
    dsimp only
    split
    · exact CountInv_vehicle_major_try s v rest h
    · split
      · exact h
      · exact CountInv_vehicle_major_try s v rest h

theorem CountInv_vehicle_major_go :
    ∀ (vs : List Vehicle) (idle : List Robot) (s : SimState), CountInv s →
      CountInv (vehicle_major_go s vs idle)
  | [], _, _, h => h
  | v :: vs, idle, s, h => by
    unfold vehicle_major_go
    dsimp only
    split
    · exact h
    · split
      · rename_i s' rid heq
        have h' := CountInv_vehicle_major_try s v
          (stable_sort (fun a b => decide (a.2 ≤ b.2))
            (List.map (fun r => (r, dist2 r.position v.position)) idle)) h
        rw [heq] at h'
        exact CountInv_vehicle_major_go vs _ s' h'
      · rename_i s' heq
        have h' := CountInv_vehicle_major_try s v
          (stable_sort (fun a b => decide (a.2 ≤ b.2))
            (List.map (fun r => (r, dist2 r.position v.position)) idle)) h
        rw [heq] at h'
        exact CountInv_vehicle_major_go vs _ s' h'

theorem CountInv_hybrid_go :
    ∀ (idle : List Robot) (scores : List (Vehicle × ℚ)) (s : SimState),
      CountInv s → CountInv (hybrid_go s idle scores)
  | [], _, _, h => h
  | r :: rest, scores, s, h => by
    unfold hybrid_go
    dsimp only
    split
    · exact h
    · split
      · exact CountInv_hybrid_go rest scores s h
      · exact CountInv_hybrid_go rest _ _ h

theorem CountInv_assign_tasks (s : SimState) (h : CountInv s) :
    CountInv (assign_tasks s) := by
  unfold assign_tasks
  dsimp only
  split
  · exact h
  · have h1 : CountInv (update_vehicle_priorities s) :=
      CountInv_update_vehicle_priorities s h
    split
    · exact h1
    · split
      · exact h1
      · split <;>
        · first
          | exact CountInv_assign_nearest_first _ _ h1
          | exact CountInv_vehicle_major_go _ _ _ h1
          | exact CountInv_hybrid_go _ _ _ h1

theorem CountInv_update_one_robot (s : SimState) (rid : ℕ)
    (h : CountInv s) : CountInv (update_one_robot s rid) := by
  unfold update_one_robot
  split
  · exact h
  · split
    · split
      · exact CountInv_assign_battery _ _ _ h
      · exact h
    · split
      · exact h
      · split
        · split
          · dsimp only
            split
            · exact CountInv_assign_battery _ _ _ h
            · exact h
          · exact CountInv_move_towards _ _ _ _ h
        · split
          · exact h
          · split
            · exact h
            · split
              · exact h
              · dsimp only
                split
                · exact CountInv_setVehicle _ _ _ (CountInv_setRobot _ _ _
                    (CountInv_move_towards _ _ _ _ h))
                · exact CountInv_move_towards _ _ _ _ h
          · split
            · exact h
            · split
              · exact h
              · dsimp only
                split
                · exact h
                · split
                  · exact h
                  · split
                    · exact CountInv_handle_task_completion _ _ h
                    · exact h
          · dsimp only
            split
            · exact CountInv_setRobot _ _ _ (CountInv_move_towards _ _ _ _ h)
            · exact CountInv_move_towards _ _ _ _ h
          · exact h

theorem CountInv_update_one_battery (s : SimState) (bid : ℕ)
    (h : CountInv s) : CountInv (update_one_battery s bid) := by
  unfold update_one_battery
  split
  · exact h
  · split
    · dsimp only
      split
      · exact CountInv_handle_battery_charged _ _ h
      · exact h
    · exact h

theorem CountInv_foldl_robots :
    ∀ (l : List ℕ) (s : SimState), CountInv s →
      CountInv (l.foldl update_one_robot s)
  | [], _, h => h
  | i :: rest, s, h =>
    CountInv_foldl_robots rest _ (CountInv_update_one_robot s i h)

theorem CountInv_foldl_batteries :
    ∀ (l : List ℕ) (s : SimState), CountInv s →
      CountInv (l.foldl update_one_battery s)
  | [], _, h => h
  | i :: rest, s, h =>
    CountInv_foldl_batteries rest _ (CountInv_update_one_battery s i h)

theorem CountInv_update_status (s : SimState) (h : CountInv s) :
    CountInv (update_status s) :=
  CountInv_foldl_batteries _ _ (CountInv_foldl_robots _ _ h)

theorem CountInv_handle_event_item (s : SimState) (it : EventItem)
    (h : CountInv s) : CountInv (handle_event_item s it) := by
  cases it with
  | vehicle_arrival v => exact CountInv_handle_vehicle_arrival s v h
  | assign_tasks => exact CountInv_assign_tasks s h
  | update_status => exact CountInv_update_status s h
  | update_priorities => exact CountInv_update_vehicle_priorities s h
  | vehicle_departure vid => exact CountInv_handle_vehicle_departure s vid h
  | task_completion rid => exact CountInv_handle_task_completion s rid h
  | battery_charged bid => exact CountInv_handle_battery_charged s bid h

theorem CountInv_run_step (s s' : SimState) (hs : run_step s = some s')
    (h : CountInv s) : CountInv s' := by
  unfold run_step at hs
  split at hs
  · split at hs
    · exact absurd hs (by simp)
    · simp only [Option.some.injEq] at hs
      subst hs
      exact CountInv_handle_event_item _ _ h
  · exact absurd hs (by simp)

theorem CountInv_run_loop :
    ∀ (fuel : ℕ) (s : SimState), CountInv s → CountInv (run_loop fuel s)
  | 0, _, h => h
  | fuel + 1, s, h => by
    unfold run_loop
    split
    · exact h
    · rename_i s' heq
      exact CountInv_run_loop fuel s' (CountInv_run_step s s' heq h)

/-! ## Claim theorems -/

/-- C3, counterexample: a charging battery at its station with charge 57
of 60 is at exactly 95 % of capacity after nothing, and the update tick
raises it to 58 ≥ 0.95·60 = 57; the claim says it transitions to
available, but its status after the tick is still `charging`:
`handle_battery_charged` is invoked at ≥ 95 % but flips the status only at
full capacity. -/
theorem C3_battery_available_counterexample :
    (getBattery (update_status fixtureC3) 0).map (fun b => (b.current_charge, b.status))
      = some (58, .charging) ∧
    (19/20 : ℚ) * 60 ≤ 58 := by
  constructor
  · norm_num [update_status, fixtureC3, emptySim, update_one_battery, getBattery,
      setBattery, battery_charge, handle_battery_charged, mkBattery, initStats,
      CHARGING_STATIONS, CHARGING_STATION_POS, PARK_WIDTH, PARK_HEIGHT,
      List.find?, List.foldl]
  · norm_num

/-- C3, amended: for a charging battery at a station below capacity, the
update tick performs one `battery_charge` step and the battery becomes
available exactly when that step reaches FULL capacity (the ≥ 95 % test
only gates invoking `handle_battery_charged`, which itself requires full
capacity); otherwise it stays `charging`. -/
theorem C3_battery_available_amended (s : SimState) (bid : ℕ) (b : Battery)
    (hb : getBattery s bid = some b) (hst : b.status = .charging)
    (hloc : CHARGING_STATIONS.contains b.location = true)
    (hlt : b.current_charge < b.max_capacity) (hpos : 0 < b.max_capacity) :
    getBattery (update_one_battery s bid) bid
      = some (if b.max_capacity ≤ (battery_charge b 1).1.current_charge
              then { (battery_charge b 1).1 with
                       current_charge := (battery_charge b 1).1.max_capacity
                       status := .available }
              else (battery_charge b 1).1) ∧
    (battery_charge b 1).1.status = .charging := by
  have hid : b.id = bid := by
    have := List.find?_some hb
    simpa using this
  have hcharge : (battery_charge b 1).2 = true := by
    unfold battery_charge
    rw [if_pos hlt]
  have hres_id : (battery_charge b 1).1.id = b.id := by
    unfold battery_charge
    rw [if_pos hlt]
  have hres_max : (battery_charge b 1).1.max_capacity = b.max_capacity := by
    unfold battery_charge
    rw [if_pos hlt]
  have hres_st : (battery_charge b 1).1.status = b.status := by
    unfold battery_charge
    rw [if_pos hlt]
  refine ⟨?_, hres_st.trans hst⟩
  have hget1 : getBattery (setBattery s bid (fun _ => (battery_charge b 1).1)) bid
      = some (battery_charge b 1).1 := by
    rw [getBattery_setBattery s bid _ (fun a _ => hres_id.trans hid), hb]
    rfl
  unfold update_one_battery
  simp only [hb]
  rw [if_pos ⟨hst, hloc⟩]
  by_cases h95 : b.max_capacity * 0.95 ≤ (battery_charge b 1).1.current_charge
  · rw [if_pos ⟨hcharge, h95⟩]
    unfold handle_battery_charged
    simp only [hget1]
    by_cases hfull : b.max_capacity ≤ (battery_charge b 1).1.current_charge
    · rw [if_pos (by simpa [hres_max] using hfull)]
      rw [getBattery_setBattery _ bid
        (fun b => { b with current_charge := b.max_capacity
                           status := BatteryStatus.available })
        (fun a ha => ha), hget1]
      rw [if_pos hfull]
      rfl
    · rw [if_neg (by simpa [hres_max] using hfull), if_neg hfull]
      exact hget1
  · have hnfull : ¬ b.max_capacity ≤ (battery_charge b 1).1.current_charge := by
      intro hfull
      exact h95 (le_trans (by nlinarith) hfull)
    rw [if_neg (by intro hc; exact h95 hc.2), if_neg hnfull]
    exact hget1

/-- C3 witness: the battery of `fixtureC3` (charge 57 of 60, charging at
its station) steps to 58 and stays charging. -/
theorem C3_battery_available_amended_witness :
    getBattery (update_one_battery fixtureC3 0) 0
      = some { mkBattery 0 with current_charge := 58, status := .charging } := by
  obtain ⟨h1, _⟩ := C3_battery_available_amended fixtureC3 0
    { mkBattery 0 with current_charge := 57, status := .charging }
    (by norm_num [fixtureC3, emptySim, getBattery, mkBattery, List.find?])
    rfl
    (by norm_num [CHARGING_STATIONS, CHARGING_STATION_POS, PARK_WIDTH, PARK_HEIGHT,
      List.contains, mkBattery, List.elem])
    (by norm_num [mkBattery])
    (by norm_num [mkBattery])
  rw [h1]
  norm_num [battery_charge, mkBattery]

/-- The nearest-first inner loop either assigns nothing or assigns a
candidate that passed both the time and the 1.3-factor energy budget. -/
theorem nearest_first_try_guard (s : SimState) (r : Robot) :
    ∀ cands : List (Vehicle × ℚ),
      nearest_first_try s r cands = s ∨
      ∃ v d2, (v, d2) ∈ cands ∧
        time_budget_ok s.current_time (rat_sqrt d2 / r.speed)
          (needed_charge_time v.current_charge v.required_charge)
          v.departure_time = true ∧
        energy_budget_ok ((robot_battery_charge s r).getD 0)
          (total_energy_needed r v) = true ∧
        nearest_first_try s r cands = effect_assignment s r.id v.id
  | [] => Or.inl rfl
  | (v, d2) :: rest => by
    unfold nearest_first_try
    by_cases ht : time_budget_ok s.current_time (rat_sqrt d2 / r.speed)
        (needed_charge_time v.current_charge v.required_charge)
        v.departure_time = true
    · rw [if_neg (by simp [ht])]
      by_cases he : energy_budget_ok ((robot_battery_charge s r).getD 0)
          (total_energy_needed r v) = true
      · rw [if_pos he]
        exact Or.inr ⟨v, d2, List.mem_cons_self _ _, ht, he, rfl⟩
      · rw [if_neg he]
        rcases nearest_first_try_guard s r rest with h | ⟨w, e2, hmem, h1, h2, h3⟩
        · exact Or.inl h
        · exact Or.inr ⟨w, e2, List.mem_cons_of_mem _ hmem, h1, h2, h3⟩
    · rw [if_pos (by simpa using ht)]
      rcases nearest_first_try_guard s r rest with h | ⟨w, e2, hmem, h1, h2, h3⟩
      · exact Or.inl h
      · exact Or.inr ⟨w, e2, List.mem_cons_of_mem _ hmem, h1, h2, h3⟩

/-- The hybrid best-match scan only ever promotes a candidate into the
accumulator after it passed the time budget and the margin-adjusted
energy budget. -/
theorem hybrid_pick_guard (s : SimState) (r : Robot) :
    ∀ (cands : List (Vehicle × ℚ)) (acc : Option Vehicle × ℚ) (v : Vehicle),
      hybrid_pick s r cands acc = some v →
      acc.1 = some v ∨
      (time_budget_ok s.current_time (distance_to r v.position / r.speed)
          (needed_charge_time v.current_charge v.required_charge)
          v.departure_time = true ∧
        hybrid_energy_ok ((robot_battery_charge s r).getD 0)
          (total_energy_needed r v) = true)
  | [], acc, v => fun h => Or.inl h
  | (w, sc) :: rest, acc, v => by
    intro h
    unfold hybrid_pick at h
    by_cases ht : time_budget_ok s.current_time (distance_to r w.position / r.speed)
        (needed_charge_time w.current_charge w.required_charge)
        w.departure_time = true
    · rw [if_neg (by simp [ht])] at h
      by_cases he : hybrid_energy_ok ((robot_battery_charge s r).getD 0)
          (total_energy_needed r w) = true
      · rw [if_neg (by simp [he])] at h
        by_cases hb : acc.2 < sc * (1 - min 0.4 (distance_to r w.position / 1000))
        · rw [if_pos hb] at h
          rcases hybrid_pick_guard s r rest _ v h with h1 | h1
          · simp only [Option.some.injEq] at h1
            subst h1
            exact Or.inr ⟨ht, he⟩
          · exact Or.inr h1
        · rw [if_neg hb] at h
          exact hybrid_pick_guard s r rest _ v h
      · rw [if_pos (by simpa using he)] at h
        exact hybrid_pick_guard s r rest _ v h
    · rw [if_pos (by simpa using ht)] at h
      exact hybrid_pick_guard s r rest _ v h

/-- C4, amended: every policy enforces the shared time budget and the
idle-with-charge-above-15 filter, and the energy budget with factor 1.3
in the four simple policies and the emergency path — but the hybrid
policy replaces 1.3 by the robot-specific margin
`clip(1.5 − battery/60, 1.2, 1.5)`, which can be as low as 1.2.  The last
two conjuncts ground the guards in the assignment loops: the nearest-first
inner loop and the hybrid best-match scan assign only guarded
candidates. -/
theorem C4_assignment_feasibility_amended :
    (∀ t travel ct dep : ℚ, time_budget_ok t travel ct dep = true →
      t + travel + ct ≤ dep) ∧
    (∀ bc total : ℚ, energy_budget_ok bc total = true → total * 1.3 < bc) ∧
    (∀ bc total : ℚ, hybrid_energy_ok bc total = true →
      total * hybrid_safety_margin bc < bc) ∧
    (∀ bc : ℚ, 1.2 ≤ hybrid_safety_margin bc ∧ hybrid_safety_margin bc ≤ 1.5) ∧
    (∀ (s : SimState) (r : Robot), r ∈ idle_robots s ↔
      r ∈ s.robots ∧ r.status = .idle ∧
        ∃ c, robot_battery_charge s r = some c ∧ 15 < c) ∧
    (∀ (s : SimState) (r : Robot) (cands : List (Vehicle × ℚ)),
      nearest_first_try s r cands = s ∨
      ∃ v d2, (v, d2) ∈ cands ∧
        time_budget_ok s.current_time (rat_sqrt d2 / r.speed)
          (needed_charge_time v.current_charge v.required_charge)
          v.departure_time = true ∧
        energy_budget_ok ((robot_battery_charge s r).getD 0)
          (total_energy_needed r v) = true ∧
        nearest_first_try s r cands = effect_assignment s r.id v.id) ∧
    (∀ (s : SimState) (r : Robot) (cands : List (Vehicle × ℚ)) (v : Vehicle),
      hybrid_pick s r cands (none, -1) = some v →
      time_budget_ok s.current_time (distance_to r v.position / r.speed)
          (needed_charge_time v.current_charge v.required_charge)
          v.departure_time = true ∧
        hybrid_energy_ok ((robot_battery_charge s r).getD 0)
          (total_energy_needed r v) = true) := by
  refine ⟨?_, ?_, ?_, ?_, ?_, ?_, ?_⟩
  · intro t travel ct dep h
    unfold time_budget_ok at h
    simpa using not_lt.mp (by simpa using h)
  · intro bc total h
    unfold energy_budget_ok at h
    simpa using h
  · intro bc total h
    unfold hybrid_energy_ok at h
    simpa [not_le] using h
  · intro bc
    unfold hybrid_safety_margin
    constructor
    · exact le_max_left _ _
    · exact max_le (by norm_num) (min_le_left _ _)
  · intro s r
    unfold idle_robots
    rw [List.mem_filter]
    constructor
    · rintro ⟨h1, h2⟩
      refine ⟨h1, ?_, ?_⟩
      · rcases Bool.and_eq_true_iff.mp h2 with ⟨h3, _⟩
        exact of_decide_eq_true h3
      · rcases Bool.and_eq_true_iff.mp h2 with ⟨_, h4⟩
        cases h5 : robot_battery_charge s r with
        | none => rw [h5] at h4; exact absurd h4 (by simp)
        | some c =>
          rw [h5] at h4
          exact ⟨c, rfl, of_decide_eq_true h4⟩
    · rintro ⟨h1, h2, c, h3, h4⟩
      refine ⟨h1, ?_⟩
      rw [Bool.and_eq_true_iff]
      exact ⟨decide_eq_true h2, by rw [h3]; exact decide_eq_true h4⟩
  · intro s r cands
    exact nearest_first_try_guard s r cands
  · intro s r cands v h
    rcases hybrid_pick_guard s r cands (none, -1) v h with h1 | h1
    · exact absurd h1 (by simp)
    · exact h1

/-- C4 witness: the amended theorem applied at concrete budgets — a
passing time budget `0 + 0 + 8 ≤ 500`, a passing 1.3-factor energy budget
`20·1.3 < 31`, and a passing hybrid budget `24·margin(30) < 30` with
`margin(30) = 1.2`. -/
theorem C4_assignment_feasibility_amended_witness :
    ((0 : ℚ) + 0 + 8 ≤ 500) ∧ ((20 : ℚ) * 1.3 < 31) ∧
    ((24 : ℚ) * hybrid_safety_margin 30 < 30) ∧
    ((1.2 : ℚ) ≤ hybrid_safety_margin 30 ∧ hybrid_safety_margin 30 ≤ 1.5) := by
  refine ⟨?_, ?_, ?_, ?_⟩
  · exact C4_assignment_feasibility_amended.1 0 0 8 500
      (by norm_num [time_budget_ok])
  · exact C4_assignment_feasibility_amended.2.1 31 20
      (by norm_num [energy_budget_ok])
  · exact C4_assignment_feasibility_amended.2.2.1 30 24
      (by norm_num [hybrid_energy_ok, hybrid_safety_margin])
  · exact C4_assignment_feasibility_amended.2.2.2.1 30

/-- C4, counterexample: under the hybrid policy, `assign_tasks` on
`fixtureC4` assigns robot 0 (battery charge 30) to vehicle 0 although the
claimed factor-1.3 energy condition fails: the estimated task energy is
24 (zero travel, half of the 48 missing units), and `24 · 1.3 = 31.2 ≥
30`; the hybrid margin for a battery at 30 is only 1.2. -/
theorem C4_assignment_feasibility_counterexample :
    ((getRobot (assign_tasks fixtureC4) 0).map (fun r => (r.status, r.target_vehicle))
      = some (.moving_to_vehicle, some 0)) ∧
    ((getVehicle (assign_tasks fixtureC4) 0).map (fun v => (v.status, v.assigned_robot))
      = some (.assigned, some 0)) ∧
    energy_budget_ok 30
      (total_energy_needed { mkRobot 0 (50, 50) with battery := some 0 }
        (mkVehicle 0 0 (50, 50) 30 500 78)) = false ∧
    hybrid_energy_ok 30
      (total_energy_needed { mkRobot 0 (50, 50) with battery := some 0 }
        (mkVehicle 0 0 (50, 50) 30 500 78)) = true := by
  refine ⟨?_, ?_, ?_, ?_⟩ <;>
    norm_num [assign_tasks, fixtureC4, emptySim, update_vehicle_priorities,
      update_priority, idle_robots, robot_battery_charge, getRobot, getBattery,
      getVehicle, setRobot, setBattery, setVehicle, assign_hybrid_strategy,
      hybrid_go, hybrid_pick, hybrid_score, waiting_list, stable_sort,
      stable_insert, effect_assignment, time_budget_ok, hybrid_energy_ok,
      energy_budget_ok, hybrid_safety_margin, total_energy_needed,
      battery_needed_for_trip, time_to_reach, find_nearest_charging_station,
      distance_to, distance, rat_sqrt, dist2, needed_charge_time, charge_speed,
      vehicle_ltb, zones, CHARGING_STATIONS, CHARGING_STATION_POS, PARK_WIDTH,
      PARK_HEIGHT, mkRobot, mkBattery, mkVehicle, initStats, List.find?,
      List.foldl, List.map, List.filter, List.contains, List.elem, BEq.beq,
      Prod.mk.injEq, Nat.sqrt, List.findIdx?, List.getD, List.erase]

/-- C5, counterexample: in `fixtureC5` robot 0 is charging vehicle 0 away
from any station with its battery at 9 (below the swap threshold 10 but
not below the in-branch threshold 8).  The update tick makes the robot
abandon through the low-battery return path: afterwards the robot is
returning with its target cleared, yet vehicle 0 still has status
`charging`, still points at robot 0, and was NOT re-enqueued in the
waiting queue — a reachable state the claim says cannot exist. -/
theorem C5_abandonment_counterexample :
    (getRobot (update_status fixtureC5) 0).map
        (fun r => (r.status, r.target_vehicle, r.position))
      = some (.returning, none, ((50 : ℚ), (50 : ℚ))) ∧
    (getVehicle (update_status fixtureC5) 0).map
        (fun v => (v.status, v.assigned_robot))
      = some (.charging, some 0) ∧
    (update_status fixtureC5).waiting_vehicles = [] := by
  refine ⟨?_, ?_, ?_⟩ <;>
    norm_num [update_status, fixtureC5, emptySim, update_one_robot,
      update_one_battery, getRobot, getBattery, getVehicle, setRobot,
      setBattery, setVehicle, move_towards, find_nearest_charging_station,
      dist2, CHARGING_STATIONS, CHARGING_STATION_POS, PARK_WIDTH, PARK_HEIGHT,
      mkRobot, mkBattery, mkVehicle, initStats, List.find?, List.foldl,
      List.contains, List.elem, BEq.beq, Prod.mk.injEq] <;>
    simp

/-- C5, amended: the restore-and-requeue block exists only in the
charging branch, whose low-battery tests sit behind the battery-below-10
swap check and are therefore unreachable; the abandonment that actually
happens (battery below 10 while away from a station) sets the robot
returning and clears the robot's own target, but leaves every vehicle —
in particular the charging target — and the waiting queue untouched. -/
theorem C5_abandonment_amended (s : SimState) (rid : ℕ) (r : Robot)
    (bid : ℕ) (batt : Battery)
    (hr : getRobot s rid = some r) (hst : r.status = .charging_vehicle)
    (hb : r.battery = some bid) (hbatt : getBattery s bid = some batt)
    (hlow : batt.current_charge < 10)
    (hnost : CHARGING_STATIONS.contains r.position = false) :
    (getRobot (update_one_robot s rid) rid).map
        (fun r => (r.status, r.target_vehicle))
      = some (.returning, none) ∧
    (update_one_robot s rid).vehicles = s.vehicles ∧
    (update_one_robot s rid).waiting_vehicles = s.waiting_vehicles := by
  have hcont : ¬ (CHARGING_STATIONS.contains r.position = true) := by
    rw [hnost]; exact Bool.false_ne_true
  unfold update_one_robot
  simp only [hr, hb, hbatt]
  rw [if_pos hlow, if_neg hcont]
  refine ⟨?_, ?_, ?_⟩
  · rw [move_towards_status]
    rw [getRobot_setRobot s rid
      (fun r => { r with status := RobotStatus.returning, target_vehicle := none })
      (fun r h => h), hr]
    rfl
  · rw [move_towards_vehicles]
    rfl
  · rw [move_towards_waiting]
    rfl

/-- C5 witness: the amended theorem applied to `fixtureC5`. -/
theorem C5_abandonment_amended_witness :
    (getRobot (update_one_robot fixtureC5 0) 0).map
        (fun r => (r.status, r.target_vehicle))
      = some (.returning, none) ∧
    (update_one_robot fixtureC5 0).vehicles = fixtureC5.vehicles ∧
    (update_one_robot fixtureC5 0).waiting_vehicles = fixtureC5.waiting_vehicles :=
  C5_abandonment_amended fixtureC5 0
    { mkRobot 0 (50, 50) with
      position := (53, 54), status := .charging_vehicle
      battery := some 0, target_vehicle := some 0 }
    0
    { mkBattery 0 with
      current_charge := 9, status := .in_use
      assigned_robot := some 0, location := (53, 54) }
    (by norm_num [fixtureC5, emptySim, getRobot, mkRobot, List.find?])
    rfl rfl
    (by norm_num [fixtureC5, emptySim, getBattery, mkBattery, List.find?])
    (by norm_num [mkBattery])
    (by norm_num [CHARGING_STATIONS, CHARGING_STATION_POS, PARK_WIDTH,
      PARK_HEIGHT, mkRobot, List.contains, List.elem, BEq.beq, Prod.mk.injEq])

/-- C9, counterexample: robot 0 returned to the station `(900, 900)` with
battery 0 — whose home `charging_station` is `(50, 50)` — depleted to 9.
The update tick drops the battery into charging at `(900, 900)`: a battery
in status charging located at a station that is not its home station,
refuting the claim that its location equals the station assigned at
setup. -/
theorem C9_battery_home_counterexample :
    (getBattery (update_status fixtureC9) 0).map
        (fun b => (b.status, b.location, b.charging_station))
      = some (.charging, ((900 : ℚ), (900 : ℚ)), ((50 : ℚ), (50 : ℚ))) ∧
    (((900 : ℚ), (900 : ℚ)) : Pos) ≠ ((50 : ℚ), (50 : ℚ)) := by
  constructor
  · norm_num [update_status, fixtureC9, emptySim, update_one_robot,
      update_one_battery, getRobot, getBattery, setRobot, setBattery,
      battery_charge, handle_battery_charged, mkRobot, mkBattery, initStats,
      CHARGING_STATIONS, CHARGING_STATION_POS, PARK_WIDTH, PARK_HEIGHT,
      List.find?, List.foldl, List.contains, List.elem, BEq.beq, Prod.mk.injEq]
  · norm_num [Prod.ext_iff]

/-- C10: a charging-transfer tick (robot in `charging_vehicle` with a
valid, active target, holding a battery at or above the swap threshold 10
— the guard under which the transfer code runs) debits exactly
`min (charge_speed vehicle) (battery − 8)` from the battery; the debit is
capped at `battery − 8`, so the battery ends the tick with at least 8.
(The in-branch below-8 abandonment the claim also describes is dead code:
the below-10 swap check precedes it.) -/
theorem C10_charging_tick_battery_floor (s : SimState) (rid : ℕ) (r : Robot)
    (bid : ℕ) (batt : Battery) (vid : ℕ) (v : Vehicle)
    (hr : getRobot s rid = some r) (hb : r.battery = some bid)
    (hbatt : getBattery s bid = some batt)
    (hnotlow : ¬ batt.current_charge < 10)
    (hst : r.status = .charging_vehicle)
    (htv : r.target_vehicle = some vid) (hv : getVehicle s vid = some v)
    (hvst : ¬ (v.status = .completed ∨ v.status = .failed)) :
    ∃ b', getBattery (update_one_robot s rid) bid = some b' ∧
      b'.current_charge = batt.current_charge
        - min (charge_speed v.current_charge) (batt.current_charge - 8) ∧
      min (charge_speed v.current_charge) (batt.current_charge - 8)
        ≤ batt.current_charge - 8 ∧
      8 ≤ b'.current_charge := by
  obtain ⟨h1, _⟩ := charging_transfer_step s rid r bid batt vid v hr hb hbatt
    hnotlow hst htv hv hvst
  refine ⟨_, h1, rfl, min_le_right _ _, ?_⟩
  have h2 := min_le_right (charge_speed v.current_charge) (batt.current_charge - 8)
  simp only
  linarith

/-- C10 witness: the mid-transfer state `fixtureC8` (battery 20, vehicle
charge 50): the tick debits `min 1.8 12 = 1.8`, leaving 18.2 ≥ 8. -/
theorem C10_charging_tick_battery_floor_witness :
    ∃ b', getBattery (update_one_robot fixtureC8 0) 0 = some b' ∧
      b'.current_charge = 20 - min (charge_speed 50) (20 - 8) ∧
      min (charge_speed 50) (20 - 8) ≤ 20 - 8 ∧
      8 ≤ b'.current_charge := by
  have h := C10_charging_tick_battery_floor fixtureC8 0
    ({ mkRobot 0 (50, 50) with
      position := (10, 10), status := .charging_vehicle
      battery := some 0, target_vehicle := some 0 })
    0
    ({ mkBattery 0 with
      current_charge := 20, status := .in_use
      assigned_robot := some 0, location := (10, 10) })
    0
    ({ mkVehicle 0 0 (10, 10) 50 500 95 with
      status := .charging, assigned_robot := some 0
      charging_start_time := some 0 })
    (by norm_num [fixtureC8, emptySim, getRobot, mkRobot, List.find?])
    rfl
    (by norm_num [fixtureC8, emptySim, getBattery, mkBattery, List.find?])
    (by norm_num [mkBattery])
    rfl rfl
    (by norm_num [fixtureC8, emptySim, getVehicle, mkVehicle, List.find?])
    (by simp [mkVehicle])
  simpa [mkBattery, mkVehicle] using h

/-- C8: vehicle charge stays within `[0, 100]`.  (a) Every vehicle the
arrival generator draws (with any oracle returning in-range uniform
values) starts with `current = initial ∈ [0, 100]` and `required ≤ 95`.
(b) A charging-transfer tick on a vehicle with `0 ≤ current < required ≤
95`, with the efficiency draw in `[0.95, 1.05]`, leaves the charge in
`[0, 100]`: the transfer is positive and bounded by the band rate times
1.05, and each band keeps the result under 100. -/
theorem C8_vehicle_charge_bounds :
    (∀ (o : Oracle) (minute : ℕ) (acc : GenAcc),
      (∀ a b k, a ≤ b → a ≤ o.uniform a b k ∧ o.uniform a b k ≤ b) →
      ∃ v', (gen_one_arrival o minute acc).events
          = acc.events ++ [((minute : ℚ), .vehicle_arrival v')] ∧
        v'.current_charge = v'.initial_charge ∧
        0 ≤ v'.current_charge ∧ v'.current_charge ≤ 100 ∧
        v'.required_charge ≤ 95) ∧
    (∀ (s : SimState) (rid : ℕ) (r : Robot) (bid : ℕ) (batt : Battery)
        (vid : ℕ) (v : Vehicle),
      getRobot s rid = some r → r.battery = some bid →
      getBattery s bid = some batt → ¬ batt.current_charge < 10 →
      r.status = .charging_vehicle → r.target_vehicle = some vid →
      getVehicle s vid = some v →
      ¬ (v.status = .completed ∨ v.status = .failed) →
      19/20 ≤ s.eff_stream.headD 1 → s.eff_stream.headD 1 ≤ 21/20 →
      0 ≤ v.current_charge → v.current_charge < v.required_charge →
      v.required_charge ≤ 95 →
      ∀ v', getVehicle (update_one_robot s rid) vid = some v' →
        0 ≤ v'.current_charge ∧ v'.current_charge ≤ 100) := by
  constructor
  · intro o minute acc h
    unfold gen_one_arrival
    dsimp only
    split_ifs with hmode hs1 hs2 he1 he2 he3
    all_goals refine ⟨_, rfl, rfl, ?_, ?_, ?_⟩
    all_goals simp only [mkVehicle]
    all_goals first
      | exact le_trans (show (0:ℚ) ≤ 5 by norm_num) (h 5 30 _ (by norm_num)).1
      | exact le_trans (show (0:ℚ) ≤ 15 by norm_num) (h 15 50 _ (by norm_num)).1
      | exact le_trans (h 5 30 _ (by norm_num)).2 (by norm_num)
      | exact le_trans (h 15 50 _ (by norm_num)).2 (by norm_num)
      | exact le_trans (h 70 95 _ (by norm_num)).2 (by norm_num)
      | exact le_trans (h 60 85 _ (by norm_num)).2 (by norm_num)
  · intro s rid r bid batt vid v hr hb hbatt hnotlow hst htv hv hvst
      he1 he2 hc0 hcr hr95 v' hv'
    obtain ⟨_, h2⟩ := charging_transfer_step s rid r bid batt vid v hr hb hbatt
      hnotlow hst htv hv hvst
    rw [hv'] at h2
    have hcharge : v'.current_charge = v.current_charge
        + min (charge_speed v.current_charge) (batt.current_charge - 8)
          * s.eff_stream.headD 1 := by
      simpa using h2
    have hmt1 : min (charge_speed v.current_charge) (batt.current_charge - 8)
        ≤ charge_speed v.current_charge := min_le_left _ _
    have hmt0 : 0 ≤ min (charge_speed v.current_charge) (batt.current_charge - 8) := by
      rw [not_lt] at hnotlow
      refine le_min (le_of_lt (charge_speed_pos _)) (by linarith)
    have heub : min (charge_speed v.current_charge) (batt.current_charge - 8)
          * s.eff_stream.headD 1
        ≤ charge_speed v.current_charge * (21/20) := by
      calc min (charge_speed v.current_charge) (batt.current_charge - 8)
            * s.eff_stream.headD 1
          ≤ min (charge_speed v.current_charge) (batt.current_charge - 8) * (21/20) :=
            mul_le_mul_of_nonneg_left he2 hmt0
        _ ≤ charge_speed v.current_charge * (21/20) := by
            exact mul_le_mul_of_nonneg_right hmt1 (by norm_num)
    have helb : 0 ≤ min (charge_speed v.current_charge) (batt.current_charge - 8)
        * s.eff_stream.headD 1 := by
      exact mul_nonneg hmt0 (by linarith)
    constructor
    · rw [hcharge]; linarith
    · rw [hcharge]
      unfold charge_speed at heub ⊢
      split_ifs at heub ⊢ with hb1 hb2
      · linarith
      · linarith
      · linarith

/-- C8 witness: part (a) at `oracle_low` (a vehicle drawn at minute 0:
current = initial = 15, required 60); part (b) at the mid-transfer state
`fixtureC8`. -/
theorem C8_vehicle_charge_bounds_witness :
    (∃ v', (gen_one_arrival oracle_low 0 ⟨initCtr, 0, []⟩).events
        = (⟨initCtr, 0, []⟩ : GenAcc).events ++ [((0 : ℚ), .vehicle_arrival v')] ∧
      v'.current_charge = v'.initial_charge ∧
      0 ≤ v'.current_charge ∧ v'.current_charge ≤ 100 ∧
      v'.required_charge ≤ 95) ∧
    (∀ v', getVehicle (update_one_robot fixtureC8 0) 0 = some v' →
      0 ≤ v'.current_charge ∧ v'.current_charge ≤ 100) := by
  constructor
  · exact C8_vehicle_charge_bounds.1 oracle_low 0 ⟨initCtr, 0, []⟩
      (fun a b k hab => ⟨le_rfl, hab⟩)
  · intro v' hv'
    exact C8_vehicle_charge_bounds.2 fixtureC8 0
      ({ mkRobot 0 (50, 50) with
        position := (10, 10), status := .charging_vehicle
        battery := some 0, target_vehicle := some 0 })
      0
      ({ mkBattery 0 with
        current_charge := 20, status := .in_use
        assigned_robot := some 0, location := (10, 10) })
      0
      ({ mkVehicle 0 0 (10, 10) 50 500 95 with
        status := .charging, assigned_robot := some 0
        charging_start_time := some 0 })
      (by norm_num [fixtureC8, emptySim, getRobot, mkRobot, List.find?])
      rfl
      (by norm_num [fixtureC8, emptySim, getBattery, mkBattery, List.find?])
      (by norm_num [mkBattery])
      rfl rfl
      (by norm_num [fixtureC8, emptySim, getVehicle, mkVehicle, List.find?])
      (by simp [mkVehicle])
      (by norm_num [fixtureC8, emptySim])
      (by norm_num [fixtureC8, emptySim])
      (by norm_num [mkVehicle])
      (by norm_num [mkVehicle])
      (by norm_num [mkVehicle])
      v' hv'

/-- C1: `needed_charge_time` is NOT the piecewise integral of the charge
curve, and is not positive whenever `required > current`: from charge 30 to
charge 40 the code returns 0 minutes, although 10 units of energy remain,
the piecewise integral is 4 minutes, and minute-by-minute charging of an
unconstrained vehicle from 30 to 40 consumes exactly 4 minutes.  The code
drops the final partial charging band whenever the target is at most 80 %
of capacity. -/
theorem C1_needed_charge_time_code_bug :
    needed_charge_time 30 40 = 0 ∧
    charge_curve_integral 30 40 = 4 ∧
    simulate_charge_minutes 40 10 30 = 4 := by
  refine ⟨by norm_num [needed_charge_time], by norm_num [charge_curve_integral], ?_⟩
  norm_num [simulate_charge_minutes, charge_speed]

/-- C2, counterexample: the claimed tie-break order says a `vehicle_arrival`
stamped at a given minute is handled before the `assign_tasks` pass stamped
at that same minute.  In the code the tie-break is lexicographic on the kind
strings, and `"assign_tasks" < "vehicle_arrival"`: from a queue holding a
vehicle arrival and an assignment pass both at minute 5, the heap pops
`assign_tasks` first. -/
theorem C2_kind_order_counterexample :
    pop_first [(5, .vehicle_arrival), (5, .assign_tasks)]
      = some (5, .assign_tasks) ∧
    ¬ kind_lt .vehicle_arrival .assign_tasks ∧
    kind_lt .assign_tasks .vehicle_arrival := by
  refine ⟨by decide, by decide, by decide⟩

/-- C2, amended: events sharing a timestamp are handled in the lexicographic
order of their kind strings, namely `assign_tasks`, `battery_charged`,
`task_completion`, `update_priorities`, `update_status`, `vehicle_arrival`,
`vehicle_departure`; in particular the `assign_tasks` pass stamped at a
minute is handled before vehicle arrivals and departures stamped at that
same minute. -/
theorem C2_kind_order_amended (t : ℚ) (k1 k2 : EventKind) :
    (event_key_lt (t, k1) (t, k2) ↔ kind_lt k1 k2) ∧
    kind_lt .assign_tasks .battery_charged ∧
    kind_lt .battery_charged .task_completion ∧
    kind_lt .task_completion .update_priorities ∧
    kind_lt .update_priorities .update_status ∧
    kind_lt .update_status .vehicle_arrival ∧
    kind_lt .vehicle_arrival .vehicle_departure ∧
    kind_lt .assign_tasks .vehicle_arrival ∧
    kind_lt .assign_tasks .vehicle_departure := by
  refine ⟨?_, by decide, by decide, by decide, by decide, by decide, by decide,
    by decide, by decide⟩
  simp [event_key_lt]

/-- C9, amended: a battery's location coincides with its assigned home
station only at creation.  At setup every battery is available at its home
station, which is one of the five charging stations; but when a depleted
battery is later dropped (the swap branch of `update_status`), it is left
charging at the ROBOT'S current position — a charging station, though not
necessarily the battery's home one.  So the true invariant is only that an
available-or-charging battery sits at SOME charging station. -/
theorem C9_battery_home_amended :
    (∀ (s : SimState) (rid : ℕ) (r : Robot) (bid : ℕ) (batt : Battery),
        getRobot s rid = some r → r.battery = some bid →
        getBattery s bid = some batt → batt.current_charge < 10 →
        CHARGING_STATIONS.contains r.position = true →
        ∀ b ∈ (update_one_robot s rid).batteries, b.id = bid →
          b.status = .charging ∧ b.location = r.position ∧
          b.location ∈ CHARGING_STATIONS) ∧
    (∀ bc : ℕ, ∀ b ∈ mk_batteries bc,
        b.status = .available ∧ b.location = b.charging_station ∧
        b.location ∈ CHARGING_STATIONS) := by
  constructor
  · intro s rid r bid batt hr hrb hbt hlt hst b hb hbid
    obtain ⟨h1, h2⟩ := drop_branch_batteries s rid r bid batt hr hrb hbt hlt hst b hb hbid
    exact ⟨h1, h2, h2 ▸ contains_mem_stations r.position hst⟩
  · intro bc b hb
    unfold mk_batteries at hb
    rcases List.mem_map.mp hb with ⟨i, hi, rfl⟩
    refine ⟨rfl, rfl, ?_⟩
    exact station_getD_mem (i % 5) (Nat.mod_lt i (by norm_num))

/-- C9, witness for the amended theorem: the robot of `fixtureC9` stands at
station `(900, 900)` with its battery at charge 9; the tick drops the
battery charging at `(900, 900)`, and the freshly created batteries of
`mk_batteries 7` all sit available at their home stations. -/
theorem C9_battery_home_amended_witness :
    (∀ b ∈ (update_one_robot fixtureC9 0).batteries, b.id = 0 →
        b.status = .charging ∧ b.location = (((900 : ℚ), (900 : ℚ)) : Pos) ∧
        b.location ∈ CHARGING_STATIONS) ∧
    (∀ b ∈ mk_batteries 7,
        b.status = .available ∧ b.location = b.charging_station ∧
        b.location ∈ CHARGING_STATIONS) := by
  refine ⟨?_, C9_battery_home_amended.2 7⟩
  exact C9_battery_home_amended.1 fixtureC9 0
    ({ mkRobot 0 (900, 900) with battery := some 0, status := .returning }) 0
    ({ mkBattery 0 with
       current_charge := 9, status := .in_use
       assigned_robot := some 0, location := (900, 900) })
    (by norm_num [getRobot, fixtureC9, emptySim, mkRobot])
    rfl
    (by norm_num [getBattery, fixtureC9, emptySim, mkBattery])
    (by norm_num [mkBattery])
    (by norm_num [CHARGING_STATIONS, List.contains, mkRobot, List.elem,
      BEq.beq, CHARGING_STATION_POS, PARK_WIDTH, PARK_HEIGHT])

theorem run_loop_succ_some (fuel : ℕ) (s s' : SimState)
    (h : run_step s = some s') : run_loop (fuel + 1) s = run_loop fuel s' := by
  rw [run_loop, h]

theorem run_loop_succ_none (fuel : ℕ) (s : SimState)
    (h : run_step s = none) : run_loop (fuel + 1) s = s := by
  rw [run_loop, h]

/-- C6, counterexample: a terminating run in which the claimed equality
`completed_count + failed_count = vehicles with departure ≤ final clock`
fails.  In `fixtureC6` the queue holds the periodic `assign_tasks` pass
stamped at the horizon 18000 together with the departure of vehicle 0, also
stamped 18000.  The heap pops `assign_tasks` first (`"assign_tasks" <
"vehicle_departure"`), the clock advances to 18000, and the loop condition
`current_time < MAX_SIM_TIME` then fails — so the departure event is never
handled: the run terminates with both counters 0 although one vehicle has
departure ≤ the final clock. -/
theorem C6_termination_count_counterexample :
    terminated (run_loop 2 fixtureC6) ∧
    (run_loop 2 fixtureC6).current_time = MAX_SIM_TIME ∧
    (run_loop 2 fixtureC6).stats.completed_count +
      (run_loop 2 fixtureC6).stats.failed_count = 0 ∧
    ((run_loop 2 fixtureC6).vehicles.filter
        (fun v => decide (v.departure_time ≤ (run_loop 2 fixtureC6).current_time))).length
      = 1 := by
  have hpop : pop_event fixtureC6.events =
      some (((18000 : ℚ), EventItem.assign_tasks),
        [((18000 : ℚ), EventItem.vehicle_departure 0)]) := by decide
  have hstep1 : run_step fixtureC6 =
      some (handle_event_item
        { fixtureC6 with current_time := 18000
                         events := [((18000 : ℚ), EventItem.vehicle_departure 0)] }
        EventItem.assign_tasks) := by
    unfold run_step
    rw [if_pos (show fixtureC6.current_time < MAX_SIM_TIME by
      norm_num [fixtureC6, emptySim, MAX_SIM_TIME])]
    simp only [hpop]
  set A := handle_event_item
      { fixtureC6 with current_time := 18000
                       events := [((18000 : ℚ), EventItem.vehicle_departure 0)] }
      EventItem.assign_tasks with hAdef
  have hct : A.current_time = 18000 := by
    rw [hAdef]
    norm_num [handle_event_item, assign_tasks, update_vehicle_priorities,
      idle_robots, fixtureC6, emptySim, List.isEmpty, List.filter,
      robot_battery_charge]
  have hs2 : run_step A = none := by
    unfold run_step
    rw [if_neg (show ¬ A.current_time < MAX_SIM_TIME by
      rw [hct]; norm_num [MAX_SIM_TIME])]
  have hrun : run_loop 2 fixtureC6 = A :=
    (run_loop_succ_some 1 fixtureC6 A hstep1).trans (run_loop_succ_none 0 A hs2)
  rw [hrun]
  have hstats : A.stats = initStats := by
    rw [hAdef]
    norm_num [handle_event_item, assign_tasks, update_vehicle_priorities,
      idle_robots, fixtureC6, emptySim, List.isEmpty, List.filter,
      robot_battery_charge]
  have hveh : (A.vehicles.filter
      (fun v => decide (v.departure_time ≤ (18000 : ℚ)))).length = 1 := by
    rw [hAdef]
    norm_num [handle_event_item, assign_tasks, update_vehicle_priorities,
      update_priority, idle_robots, fixtureC6, emptySim, List.isEmpty,
      List.filter, List.map, List.contains, List.elem, BEq.beq, mkVehicle,
      robot_battery_charge]
  refine ⟨Or.inr (by rw [hct]; norm_num [MAX_SIM_TIME]), by rw [hct, MAX_SIM_TIME]; norm_num, ?_, ?_⟩
  · rw [hstats]
    norm_num [initStats]
  · rw [hct]
    exact hveh

/-- C6, amended: the counters never overcount — at every state of every
run, `completed_count` and `failed_count` equal the lengths of the
processed-completion and processed-failure lists, and this bookkeeping
invariant is preserved by the whole kernel loop.  The spec's equality with
"vehicles whose departure ≤ final clock" fails only because departure
events stamped exactly at the horizon minute can be preempted by the
alphabetically-smaller `assign_tasks` event and never processed. -/
theorem C6_termination_count_amended (fuel : ℕ) (s : SimState)
    (h : CountInv s) : CountInv (run_loop fuel s) :=
  CountInv_run_loop fuel s h

/-- C6, witness for the amended theorem at the horizon-race fixture. -/
theorem C6_termination_count_amended_witness :
    CountInv fixtureC6 ∧ CountInv (run_loop 2 fixtureC6) :=
  ⟨⟨rfl, rfl⟩, C6_termination_count_amended 2 fixtureC6 ⟨rfl, rfl⟩⟩

/-- C7: the claimed constructor `new(scale, policy, seed)` does not exist —
`ChargingSimulation.__init__(scale_name, strategy)` takes no seed and every
draw comes from the process-global `random`/`np.random` state, which is
never seeded anywhere in the repository.  Runs are therefore not
reproducible: constructing two simulators sequentially in one process
consumes one shared stream.  Exhibited on the embedding: the robot fleets
of two successive constructions under the same oracle stream (the second
starting at the draw counters the first left behind) place their robots at
different home stations. -/
theorem C7_determinism_code_bug :
    ∃ o : Oracle,
      ((mk_robots o 1 0 initCtr).1.map (fun r => r.position)) ≠
      ((mk_robots o 1 0 (mk_robots o 1 0 initCtr).2).1.map (fun r => r.position)) := by
  refine ⟨{ choice := fun k => k % 5, rand := fun _ => 0,
            uniform := fun a _ _ => a, randint := fun a _ _ => a,
            poisson := fun _ => 0 }, ?_⟩
  norm_num [mk_robots, mkRobot, initCtr, CHARGING_STATIONS,
    CHARGING_STATION_POS, PARK_WIDTH, PARK_HEIGHT, List.getD,
    Prod.mk.injEq]

end EVSim
